import Mathlib

namespace Disforge

/-! ## The embedded program -/

/-- The 8-entry general-purpose register name table (`reg_names` in the C). -/
def reg_names : List String :=
  ["EAX", "ECX", "EDX", "EBX", "ESP", "EBP", "ESI", "EDI"]

/-- Model of `print_reg`: a register name, using only the low 3 bits of the code. -/
def regName (r : Nat) : String := reg_names.getD (r % 8) ""

/-- The 16-entry condition-code table used by `print_condition`. -/
def cond_names : List String :=
  ["O", "NO", "B/NAE/C", "NB/AE/NC", "E/Z", "NE/NZ", "BE/NA", "NBE/A",
   "S", "NS", "P/PE", "NP/PO", "L/NGE", "NL/GE", "LE/NG", "NLE/G"]

/-- Model of `print_condition`: a condition-code name, using only the low 4 bits. -/
def condName (c : Nat) : String := cond_names.getD (c % 16) ""

/-- Lowercase hexadecimal rendering of a natural number (`%x`). -/
def hexStr (n : Nat) : String := String.mk (Nat.toDigits 16 n)

/-- Hexadecimal rendering zero-padded to at least `w` digits (`%0wx`);
wider values are not truncated. -/
def hexPad (w n : Nat) : String :=
  String.mk (List.replicate (w - (hexStr n).length) '0') ++ hexStr n

/-- The `"%04zx: "` offset column printed at the start of every line. -/
def fmtOff (i : Nat) : String := hexPad 4 i ++ ": "

/-- A byte read from the buffer: `code[i]` as a `uint8_t`.  Reads past the end
of the list produce the explicit default `d` (masked to a byte); the program is
proved never to depend on `d`. -/
def byteAtD (d : Nat) (code : List Nat) (i : Nat) : Nat := code.getD i d % 256

/-- A 32-bit little-endian read, `*(uint32_t*)&code[i]` on the x86 host. -/
def le32 (d : Nat) (code : List Nat) (i : Nat) : Nat :=
  byteAtD d code i + 256 * byteAtD d code (i + 1) +
    65536 * byteAtD d code (i + 2) + 16777216 * byteAtD d code (i + 3)

/-- Sign extension of a byte, `(int8_t)b`. -/
def sign8 (b : Nat) : Int := if b < 128 then (b : Int) else (b : Int) - 256

/-- Sign interpretation of a 32-bit value, `(int32_t)v`. -/
def sign32 (v : Nat) : Int :=
  if v < 2 ^ 31 then (v : Int) else (v : Int) - 2 ^ 32

/-- The value `(size_t)(*(int32_t*)&code[i+1] + i + 5)`: the absolute CALL/JMP target,
computed in 64-bit `size_t` arithmetic. -/
def callTarget (i v : Nat) : Nat := (((i : Int) + 5 + sign32 v) % (2 ^ 64)).toNat

/-- The value `(uint8_t)(i + 2 + (int8_t)code[i+1])`: the LOOP target byte. -/
def loopTarget (i b : Nat) : Nat := (((i : Int) + 2 + sign8 b) % 256).toNat

/-- The displacement tail of a memory operand in `decode_rm_operand`: the text
appended after the base/index part (including the closing bracket when the
displacement is complete) and the new cursor index. -/
def dispSuffix (d : Nat) (code : List Nat) (index size m rm : Nat) :
    String × Nat :=
  if m = 1 then
    if index ≥ size then (" + <incomplete disp8>", index)
    else
      let b := byteAtD d code index
      if 128 ≤ b then (" - 0x" ++ hexStr (256 - b) ++ "]", index + 1)
      else (" + 0x" ++ hexStr b ++ "]", index + 1)
  else if m = 2 ∨ (m = 0 ∧ rm = 5) then
    if index + 4 > size then (" + <incomplete disp32>", index)
    else
      let v := le32 d code index
      if 2 ^ 31 ≤ v then (" - 0x" ++ hexStr (2 ^ 32 - v) ++ "]", index + 4)
      else (" + 0x" ++ hexStr v ++ "]", index + 4)
  else ("]", index)

/-- Model of `decode_rm_operand(modrm, code, index, code_size, buffer, bufsize)`:
returns the operand text written into `buffer` and the new cursor index.  The
64-byte `buffer` in the C is never filled (memory operand texts are short), so
plain string concatenation is a faithful model. -/
def decode_rm_operand (d modrm : Nat) (code : List Nat) (index size : Nat) :
    String × Nat :=
  let m := modrm / 64
  let rm := modrm % 8
  if m = 3 then (regName rm, index)
  else if rm = 4 then
    if index ≥ size then ("[incomplete SIB", index)
    else
      let sib := byteAtD d code index
      let scale := sib / 64
      let idxReg := sib / 8 % 8
      let base := sib % 8
      let s1 := if m = 0 ∧ base = 5 then "[" else "[" ++ regName base
      let s2 :=
        if idxReg = 4 then s1
        else s1 ++ " + " ++ regName idxReg ++
          (if 0 < scale then "*" ++ toString (2 ^ scale : Nat) else "")
      let ds := dispSuffix d code (index + 1) size m rm
      (s2 ++ ds.1, ds.2)
  else
    let ds := dispSuffix d code index size m rm
    ("[" ++ regName rm ++ ds.1, ds.2)

/-- The arithmetic-group mnemonic table (`ops` in the C arithmetic cases). -/
def arithOps : List String := ["ADD", "OR", "ADC", "SBB", "AND", "SUB", "XOR", "CMP"]

/-- The shift/rotate mnemonic table. -/
def shiftOps : List String := ["ROL", "ROR", "RCL", "RCR", "SHL", "SHR", "SAL", "SAR"]

/-- The 0xF6/0xF7 group mnemonic table. -/
def f6Ops : List String := ["TEST", "TEST", "NOT", "NEG", "MUL", "IMUL", "DIV", "IDIV"]

/-- Cases 0x88-0x8B: MOV with ModR/M; bit 1 of the opcode is the direction. -/
def stepMOVrm (d : Nat) (code : List Nat) (i size opcode : Nat) :
    String × Option Nat :=
  if i + 1 ≥ size then ("Incomplete MOV instruction", none)
  else
    let modrm := byteAtD d code (i + 1)
    let r := decode_rm_operand d modrm code (i + 2) size
    if opcode / 2 % 2 = 1 then
      ("MOV " ++ regName (modrm / 8) ++ ", " ++ r.1, some r.2)
    else
      ("MOV " ++ r.1 ++ ", " ++ regName (modrm / 8), some r.2)

/-- The arithmetic ModR/M cases (0x00-0x3D with low three bits 0-5). -/
def stepArith (d : Nat) (code : List Nat) (i size opcode : Nat) :
    String × Option Nat :=
  if i + 1 ≥ size then ("Incomplete arithmetic instruction", none)
  else
    let modrm := byteAtD d code (i + 1)
    let r := decode_rm_operand d modrm code (i + 2) size
    let op := arithOps.getD (opcode / 8 % 8) ""
    if opcode / 2 % 2 = 1 then
      (op ++ " " ++ regName (modrm / 8) ++ ", " ++ r.1, some r.2)
    else
      (op ++ " " ++ r.1 ++ ", " ++ regName (modrm / 8), some r.2)

/-- Cases 0x80/0x81/0x83: immediate arithmetic (imm32 for 0x81, else imm8). -/
def stepImmArith (d : Nat) (code : List Nat) (i size opcode : Nat) :
    String × Option Nat :=
  if i + 1 ≥ size then ("Incomplete immediate arithmetic", none)
  else
    let modrm := byteAtD d code (i + 1)
    let r := decode_rm_operand d modrm code (i + 2) size
    let pre := arithOps.getD (modrm / 8 % 8) "" ++ " " ++ r.1 ++ ", "
    if opcode = 0x81 then
      if r.2 + 4 > size then (pre ++ "Incomplete immediate", none)
      else (pre ++ "0x" ++ hexPad 8 (le32 d code r.2), some (r.2 + 4))
    else
      if r.2 ≥ size then (pre ++ "Incomplete immediate", none)
      else (pre ++ "0x" ++ hexPad 2 (byteAtD d code r.2), some (r.2 + 1))

/-- Case 0xC6: MOV r/m8, imm8. -/
def stepMOVC6 (d : Nat) (code : List Nat) (i size : Nat) : String × Option Nat :=
  if i + 1 ≥ size then ("Incomplete MOV r/m8, imm8", none)
  else
    let modrm := byteAtD d code (i + 1)
    let r := decode_rm_operand d modrm code (i + 2) size
    if r.2 ≥ size then ("MOV " ++ r.1 ++ ", " ++ "Incomplete immediate", none)
    else ("MOV " ++ r.1 ++ ", " ++ "0x" ++ hexPad 2 (byteAtD d code r.2),
      some (r.2 + 1))

/-- Case 0xC7: MOV r/m32, imm32. -/
def stepMOVC7 (d : Nat) (code : List Nat) (i size : Nat) : String × Option Nat :=
  if i + 1 ≥ size then ("Incomplete MOV r/m32, imm32", none)
  else
    let modrm := byteAtD d code (i + 1)
    let r := decode_rm_operand d modrm code (i + 2) size
    if r.2 + 4 > size then ("MOV " ++ r.1 ++ ", " ++ "Incomplete immediate", none)
    else ("MOV " ++ r.1 ++ ", " ++ "0x" ++ hexPad 8 (le32 d code r.2),
      some (r.2 + 4))

/-- Case 0x8D: LEA. -/
def stepLEA (d : Nat) (code : List Nat) (i size : Nat) : String × Option Nat :=
  if i + 1 ≥ size then ("Incomplete LEA", none)
  else
    let modrm := byteAtD d code (i + 1)
    let r := decode_rm_operand d modrm code (i + 2) size
    ("LEA " ++ regName (modrm / 8) ++ ", " ++ r.1, some r.2)

/-- Cases 0x84/0x85: TEST rm, reg. -/
def stepTEST (d : Nat) (code : List Nat) (i size : Nat) : String × Option Nat :=
  if i + 1 ≥ size then ("Incomplete TEST", none)
  else
    let modrm := byteAtD d code (i + 1)
    let r := decode_rm_operand d modrm code (i + 2) size
    ("TEST " ++ r.1 ++ ", " ++ regName (modrm / 8), some r.2)

/-- Cases 0x86/0x87: XCHG rm, reg. -/
def stepXCHG (d : Nat) (code : List Nat) (i size : Nat) : String × Option Nat :=
  if i + 1 ≥ size then ("Incomplete XCHG", none)
  else
    let modrm := byteAtD d code (i + 1)
    let r := decode_rm_operand d modrm code (i + 2) size
    ("XCHG " ++ r.1 ++ ", " ++ regName (modrm / 8), some r.2)

/-- Cases 0xC0/0xC1/0xD0-0xD3: shift/rotate group. -/
def stepShift (d : Nat) (code : List Nat) (i size opcode : Nat) :
    String × Option Nat :=
  if i + 1 ≥ size then ("Incomplete shift/rotate", none)
  else
    let modrm := byteAtD d code (i + 1)
    let r := decode_rm_operand d modrm code (i + 2) size
    let pre := shiftOps.getD (modrm / 8 % 8) "" ++ " " ++ r.1 ++ ", "
    if opcode = 0xD2 ∨ opcode = 0xD3 then (pre ++ "CL", some r.2)
    else if opcode = 0xC0 ∨ opcode = 0xC1 then
      if r.2 ≥ size then (pre ++ "Incomplete immediate", none)
      else (pre ++ "0x" ++ hexPad 2 (byteAtD d code r.2), some (r.2 + 1))
    else (pre ++ "1", some r.2)

/-- Cases 0xF6/0xF7: the TEST/NOT/NEG/MUL/IMUL/DIV/IDIV group. -/
def stepF6F7 (d : Nat) (code : List Nat) (i size opcode : Nat) :
    String × Option Nat :=
  if i + 1 ≥ size then ("Incomplete MUL/IMUL/DIV/IDIV", none)
  else
    let modrm := byteAtD d code (i + 1)
    let r := decode_rm_operand d modrm code (i + 2) size
    let regop := modrm / 8 % 8
    let pre := f6Ops.getD regop "" ++ " " ++ r.1
    if regop = 0 ∨ regop = 1 then
      if opcode = 0xF6 then
        if r.2 ≥ size then (pre ++ " <incomplete imm>", none)
        else (pre ++ ", 0x" ++ hexPad 2 (byteAtD d code r.2), some (r.2 + 1))
      else
        if r.2 + 4 > size then (pre ++ " <incomplete imm>", none)
        else (pre ++ ", 0x" ++ hexPad 8 (le32 d code r.2), some (r.2 + 4))
    else (pre, some r.2)

/-- Case 0x0F: the two-byte escape (MOVZX/MOVSX or the unknown marker).  On
insufficient bytes this branch does `i++; break;` rather than `return`, so it
continues at `i + 1`. -/
def step0F (d : Nat) (code : List Nat) (i size : Nat) : String × Option Nat :=
  if i + 2 ≥ size then ("Incomplete 0F instruction", some (i + 1))
  else
    let second := byteAtD d code (i + 1)
    let modrm := byteAtD d code (i + 2)
    if second = 0xB6 ∨ second = 0xB7 then
      let r := decode_rm_operand d modrm code (i + 3) size
      ("MOVZX " ++ regName (modrm / 8) ++ ", " ++
        (if second = 0xB6 then "BYTE PTR " else "") ++ r.1, some r.2)
    else if second = 0xBE ∨ second = 0xBF then
      let r := decode_rm_operand d modrm code (i + 3) size
      ("MOVSX " ++ regName (modrm / 8) ++ ", " ++
        (if second = 0xBE then "BYTE PTR " else "") ++ r.1, some r.2)
    else ("Unknown 0F instruction", some (i + 2))

/-- Case 0xFF: INC/DEC/CALL/JMP indirect, selected by the ModR/M reg field. -/
def stepFF (d : Nat) (code : List Nat) (i size : Nat) : String × Option Nat :=
  if i + 1 ≥ size then ("Incomplete FF instruction", none)
  else
    let modrm := byteAtD d code (i + 1)
    let regop := modrm / 8 % 8
    if regop = 0 then
      let r := decode_rm_operand d modrm code (i + 2) size
      ("INC " ++ r.1, some r.2)
    else if regop = 1 then
      let r := decode_rm_operand d modrm code (i + 2) size
      ("DEC " ++ r.1, some r.2)
    else if regop = 2 then
      let r := decode_rm_operand d modrm code (i + 2) size
      ("CALL " ++ r.1, some r.2)
    else if regop = 4 then
      let r := decode_rm_operand d modrm code (i + 2) size
      ("JMP " ++ r.1, some r.2)
    else ("Unknown FF instruction", some (i + 2))

/-- The shape shared by all branches printing `mn` followed by a raw byte in
`0x%02x` form (MOV reg, imm8; PUSH imm8; Jcc; JMP rel8; LOOPNZ/LOOPZ/JECXZ). -/
def stepImm8 (d : Nat) (code : List Nat) (i size : Nat) (mn inc : String) :
    String × Option Nat :=
  if i + 1 ≥ size then (inc, none)
  else (mn ++ "0x" ++ hexPad 2 (byteAtD d code (i + 1)), some (i + 2))

/-- The shape shared by branches printing `mn` followed by an imm32 in
`0x%08x` form (MOV reg, imm32; PUSH imm32). -/
def stepImm32 (d : Nat) (code : List Nat) (i size : Nat) (mn inc : String) :
    String × Option Nat :=
  if i + 4 ≥ size then (inc, none)
  else (mn ++ "0x" ++ hexPad 8 (le32 d code (i + 1)), some (i + 5))

/-- Cases 0xE8/0xE9: CALL/JMP rel32, printing the absolute target. -/
def stepRel32 (d : Nat) (code : List Nat) (i size : Nat) (mn inc : String) :
    String × Option Nat :=
  if i + 4 ≥ size then (inc, none)
  else (mn ++ "0x" ++ hexPad 8 (callTarget i (le32 d code (i + 1))), some (i + 5))

/-- Case 0xE2: LOOP, printing the byte-truncated absolute target. -/
def stepLOOP (d : Nat) (code : List Nat) (i size : Nat) : String × Option Nat :=
  if i + 1 ≥ size then ("Incomplete LOOP", none)
  else ("LOOP 0x" ++ hexPad 2 (loopTarget i (byteAtD d code (i + 1))), some (i + 2))

/-- Case 0xF3: the REP prefix.  `i` is incremented past 0xF3, the following
byte (when present) is restricted to MOVSB/MOVSD, and in every subcase the
branch ends with `break`, never `return`. -/
def stepREP (d : Nat) (code : List Nat) (i size : Nat) : String × Option Nat :=
  if i + 1 < size then
    let b2 := byteAtD d code (i + 1)
    if b2 = 0xA4 then ("REP " ++ "MOVSB", some (i + 2))
    else if b2 = 0xA5 then ("REP " ++ "MOVSD", some (i + 2))
    else ("REP " ++ "Unknown REP instruction", some (i + 2))
  else ("REP " ++ "Incomplete REP instruction", some (i + 2))

/-- The opcode classification performed by the `switch (opcode)` of
`disassemble`: one constructor per distinct branch shape, carrying the
mnemonic/marker texts the branch prints. -/
inductive Branch where
  | movRM : Branch
  | arith : Branch
  | immArith : Branch
  | regOp : String → Branch
  | fixed : String → Branch
  | imm8 : String → String → Branch
  | imm32 : String → String → Branch
  | rel32 : String → String → Branch
  | movC6 : Branch
  | movC7 : Branch
  | lea : Branch
  | testRM : Branch
  | xchg : Branch
  | shift : Branch
  | f6f7 : Branch
  | esc0F : Branch
  | ff : Branch
  | loopE2 : Branch
  | rep : Branch
  | unknown : Branch
  deriving DecidableEq

/-- The case labels of the C `switch (opcode)`, in source order. -/
def branchOf (b : Nat) : Branch :=
  if 0x88 ≤ b ∧ b ≤ 0x8B then .movRM
  else if 0xB0 ≤ b ∧ b ≤ 0xB7 then
    .imm8 ("MOV " ++ regName b ++ ", ") "Incomplete MOV imm8"
  else if 0xB8 ≤ b ∧ b ≤ 0xBF then
    .imm32 ("MOV " ++ regName b ++ ", ") "Incomplete MOV imm32"
  else if b < 0x40 ∧ b % 8 < 6 then .arith
  else if b = 0x80 ∨ b = 0x81 ∨ b = 0x83 then .immArith
  else if 0x40 ≤ b ∧ b ≤ 0x47 then .regOp "INC "
  else if 0x48 ≤ b ∧ b ≤ 0x4F then .regOp "DEC "
  else if 0x50 ≤ b ∧ b ≤ 0x57 then .regOp "PUSH "
  else if 0x58 ≤ b ∧ b ≤ 0x5F then .regOp "POP "
  else if b = 0x68 then .imm32 "PUSH " "Incomplete PUSH imm32"
  else if b = 0x6A then .imm8 "PUSH " "Incomplete PUSH imm8"
  else if b = 0xC6 then .movC6
  else if b = 0xC7 then .movC7
  else if 0x70 ≤ b ∧ b ≤ 0x7F then
    .imm8 ("J" ++ condName b ++ " ") "Incomplete conditional jump"
  else if b = 0xE8 then .rel32 "CALL " "Incomplete CALL"
  else if b = 0xE9 then .rel32 "JMP " "Incomplete JMP"
  else if b = 0xEB then .imm8 "JMP " "Incomplete JMP rel8"
  else if b = 0x90 then .fixed "NOP"
  else if b = 0xC3 then .fixed "RET"
  else if b = 0xCC then .fixed "INT3"
  else if b = 0x8D then .lea
  else if b = 0x84 ∨ b = 0x85 then .testRM
  else if b = 0x86 ∨ b = 0x87 then .xchg
  else if b = 0xC0 ∨ b = 0xC1 ∨ (0xD0 ≤ b ∧ b ≤ 0xD3) then .shift
  else if b = 0xF6 ∨ b = 0xF7 then .f6f7
  else if b = 0x0F then .esc0F
  else if b = 0xFF then .ff
  else if b = 0xE0 then .imm8 "LOOPNZ " "Incomplete LOOPNZ"
  else if b = 0xE1 then .imm8 "LOOPZ " "Incomplete LOOPZ"
  else if b = 0xE2 then .loopE2
  else if b = 0xE3 then .imm8 "JECXZ " "Incomplete JECXZ"
  else if b = 0xA4 then .fixed "MOVSB"
  else if b = 0xA5 then .fixed "MOVSD"
  else if b = 0xA6 then .fixed "CMPSB"
  else if b = 0xA7 then .fixed "CMPSD"
  else if b = 0xAA then .fixed "STOSB"
  else if b = 0xAB then .fixed "STOSD"
  else if b = 0xAC then .fixed "LODSB"
  else if b = 0xAD then .fixed "LODSD"
  else if b = 0xAE then .fixed "SCASB"
  else if b = 0xAF then .fixed "SCASD"
  else if b = 0xF0 then .fixed "LOCK "
  else if b = 0xF2 then .fixed "REPNZ "
  else if b = 0xF3 then .rep
  else .unknown

/-- One iteration of the `disassemble` loop body at cursor `i`: dispatch on
the opcode byte exactly as the C `switch (opcode)` does.  Register-only
branches print `mn ++ reg_names[opcode & 7]` and consume one byte; fixed
branches print a constant and consume one byte; the unknown default prints the
offending byte and consumes one byte; all other branches are the helper
functions above. -/
def step (d : Nat) (code : List Nat) (i : Nat) : String × Option Nat :=
  let size := code.length
  let opcode := byteAtD d code i
  match branchOf opcode with
  | .movRM => stepMOVrm d code i size opcode
  | .arith => stepArith d code i size opcode
  | .immArith => stepImmArith d code i size opcode
  | .regOp mn => (mn ++ regName opcode, some (i + 1))
  | .fixed s => (s, some (i + 1))
  | .imm8 mn inc => stepImm8 d code i size mn inc
  | .imm32 mn inc => stepImm32 d code i size mn inc
  | .rel32 mn inc => stepRel32 d code i size mn inc
  | .movC6 => stepMOVC6 d code i size
  | .movC7 => stepMOVC7 d code i size
  | .lea => stepLEA d code i size
  | .testRM => stepTEST d code i size
  | .xchg => stepXCHG d code i size
  | .shift => stepShift d code i size opcode
  | .f6f7 => stepF6F7 d code i size opcode
  | .esc0F => step0F d code i size
  | .ff => stepFF d code i size
  | .loopE2 => stepLOOP d code i size
  | .rep => stepREP d code i size
  | .unknown => ("Unknown instruction: 0x" ++ hexPad 2 opcode, some (i + 1))

/-- The `disassemble` loop, indexed by fuel so that the recursion is
structural; each iteration consumes one unit of fuel, and since every step
advances the cursor, `code.length` fuel runs the loop to completion. -/
def goF (d : Nat) (code : List Nat) : Nat → Nat → List String
  | 0, _ => []
  | fuel + 1, i =>
    if i < code.length then
      match step d code i with
      | (t, none) => [fmtOff i ++ t]
      | (t, some next) => (fmtOff i ++ t) :: goF d code fuel next
    else []

/-- The output of the decode pass resumed at cursor `i`. -/
def disasmFrom (d : Nat) (code : List Nat) (i : Nat) : List String :=
  goF d code (code.length - i) i

/-- Model of `disassemble(code, code_size)`: the list of output lines of the whole pass. -/
def disassemble (code : List Nat) : List String := goF 0 code code.length 0

/-- A numeric discriminator for `Branch`, ignoring the text payloads. -/
def Branch.tag : Branch → Nat
  | .movRM => 0
  | .arith => 1
  | .immArith => 2
  | .regOp _ => 3
  | .fixed _ => 4
  | .imm8 _ _ => 5
  | .imm32 _ _ => 6
  | .rel32 _ _ => 7
  | .movC6 => 8
  | .movC7 => 9
  | .lea => 10
  | .testRM => 11
  | .xchg => 12
  | .shift => 13
  | .f6f7 => 14
  | .esc0F => 15
  | .ff => 16
  | .loopE2 => 17
  | .rep => 18
  | .unknown => 19

/-- The opcode bytes handled by some `case` of the `switch` (everything except
the `default:` unknown-instruction branch). -/
def knownPrimary (b : Nat) : Prop :=
  (0x88 ≤ b ∧ b ≤ 0x8B) ∨ (0xB0 ≤ b ∧ b ≤ 0xBF) ∨ (b < 0x40 ∧ b % 8 < 6) ∨
    b = 0x80 ∨ b = 0x81 ∨ b = 0x83 ∨ (0x40 ≤ b ∧ b ≤ 0x5F) ∨ b = 0x68 ∨
    b = 0x6A ∨ b = 0xC6 ∨ b = 0xC7 ∨ (0x70 ≤ b ∧ b ≤ 0x7F) ∨ b = 0xE8 ∨
    b = 0xE9 ∨ b = 0xEB ∨ b = 0x90 ∨ b = 0xC3 ∨ b = 0xCC ∨ b = 0x8D ∨
    (0x84 ≤ b ∧ b ≤ 0x87) ∨ b = 0xC0 ∨ b = 0xC1 ∨ (0xD0 ≤ b ∧ b ≤ 0xD3) ∨
    b = 0xF6 ∨ b = 0xF7 ∨ b = 0x0F ∨ b = 0xFF ∨ (0xE0 ≤ b ∧ b ≤ 0xE3) ∨
    (0xA4 ≤ b ∧ b ≤ 0xA7) ∨ (0xAA ≤ b ∧ b ≤ 0xAF) ∨ b = 0xF0 ∨ b = 0xF2 ∨
    b = 0xF3

instance (b : Nat) : Decidable (knownPrimary b) := by
  unfold knownPrimary
  infer_instance

/-- The cursor position after the ModR/M operand decode that starts at `i + 2`
(used to state when an immediate that follows the operand is short). -/
def rmEnd (d : Nat) (code : List Nat) (i : Nat) : Nat :=
  (decode_rm_operand d (byteAtD d code (i + 1)) code (i + 2) code.length).2

/-- The ModR/M `reg` field of the byte following position `i`. -/
def modrmRegop (d : Nat) (code : List Nat) (i : Nat) : Nat :=
  byteAtD d code (i + 1) / 8 % 8

/-- The byte shortages on which `disassemble` executes `return`, ending the
whole pass: a missing ModR/M byte for a ModR/M-bearing opcode, missing
immediate bytes, or missing relative-offset bytes.  The `0x0F` escape with
fewer than two following bytes and the REP prefix at the end of the buffer are
deliberately absent: those branches print their marker and continue. -/
def terminalShortage (d : Nat) (code : List Nat) (i : Nat) : Prop :=
  let n := code.length
  let b := byteAtD d code i
  ((0x88 ≤ b ∧ b ≤ 0x8B) ∧ i + 1 ≥ n) ∨
    ((b < 0x40 ∧ b % 8 < 6) ∧ i + 1 ≥ n) ∨
    ((b = 0x80 ∨ b = 0x81 ∨ b = 0x83) ∧ i + 1 ≥ n) ∨
    (b = 0x81 ∧ rmEnd d code i + 4 > n) ∨
    ((b = 0x80 ∨ b = 0x83) ∧ rmEnd d code i ≥ n) ∨
    (((0xB0 ≤ b ∧ b ≤ 0xB7) ∨ b = 0x6A ∨ (0x70 ≤ b ∧ b ≤ 0x7F) ∨ b = 0xEB ∨
        b = 0xE0 ∨ b = 0xE1 ∨ b = 0xE3) ∧ i + 1 ≥ n) ∨
    (((0xB8 ≤ b ∧ b ≤ 0xBF) ∨ b = 0x68 ∨ b = 0xE8 ∨ b = 0xE9) ∧ i + 4 ≥ n) ∨
    (b = 0xC6 ∧ (i + 1 ≥ n ∨ rmEnd d code i ≥ n)) ∨
    (b = 0xC7 ∧ (i + 1 ≥ n ∨ rmEnd d code i + 4 > n)) ∨
    ((b = 0x8D ∨ b = 0x84 ∨ b = 0x85 ∨ b = 0x86 ∨ b = 0x87) ∧ i + 1 ≥ n) ∨
    ((b = 0xC0 ∨ b = 0xC1 ∨ (0xD0 ≤ b ∧ b ≤ 0xD3)) ∧ i + 1 ≥ n) ∨
    ((b = 0xC0 ∨ b = 0xC1) ∧ rmEnd d code i ≥ n) ∨
    ((b = 0xF6 ∨ b = 0xF7) ∧ i + 1 ≥ n) ∨
    (b = 0xF6 ∧ (modrmRegop d code i = 0 ∨ modrmRegop d code i = 1) ∧
      rmEnd d code i ≥ n) ∨
    (b = 0xF7 ∧ (modrmRegop d code i = 0 ∨ modrmRegop d code i = 1) ∧
      rmEnd d code i + 4 > n) ∨
    (b = 0xFF ∧ i + 1 ≥ n) ∨
    (b = 0xE2 ∧ i + 1 ≥ n)

/-! ## Properties of the program -/

theorem dispSuffix_bounds (d : Nat) (code : List Nat) (index size m rm : Nat) :
    index ≤ (dispSuffix d code index size m rm).2 ∧
      (dispSuffix d code index size m rm).2 ≤ max index size := by
  simp only [dispSuffix]
  split_ifs <;> simp <;> omega

theorem decode_rm_bounds (d modrm : Nat) (code : List Nat) (index size : Nat) :
    index ≤ (decode_rm_operand d modrm code index size).2 ∧
      (decode_rm_operand d modrm code index size).2 ≤ max index size := by
  have hb0 := dispSuffix_bounds d code index size (modrm / 64) (modrm % 8)
  have hb1 := dispSuffix_bounds d code (index + 1) size (modrm / 64) (modrm % 8)
  simp only [decode_rm_operand]
  split_ifs <;> simp <;> omega

theorem stepMOVrm_next (d : Nat) (code : List Nat) (i size opcode next : Nat)
    (hi : i < size) (h : (stepMOVrm d code i size opcode).2 = some next) :
    i + 1 ≤ next ∧ next ≤ size := by
  have hA := decode_rm_bounds d (byteAtD d code (i + 1)) code (i + 2) size
  simp only [stepMOVrm] at h
  split_ifs at h <;> simp only [Option.some.injEq] at h <;> omega

theorem stepArith_next (d : Nat) (code : List Nat) (i size opcode next : Nat)
    (hi : i < size) (h : (stepArith d code i size opcode).2 = some next) :
    i + 1 ≤ next ∧ next ≤ size := by
  have hA := decode_rm_bounds d (byteAtD d code (i + 1)) code (i + 2) size
  simp only [stepArith] at h
  split_ifs at h <;> simp only [Option.some.injEq] at h <;> omega

theorem stepImmArith_next (d : Nat) (code : List Nat) (i size opcode next : Nat)
    (hi : i < size) (h : (stepImmArith d code i size opcode).2 = some next) :
    i + 1 ≤ next ∧ next ≤ size := by
  have hA := decode_rm_bounds d (byteAtD d code (i + 1)) code (i + 2) size
  simp only [stepImmArith] at h
  split_ifs at h <;> simp only [Option.some.injEq] at h <;> omega

theorem stepMOVC6_next (d : Nat) (code : List Nat) (i size next : Nat)
    (hi : i < size) (h : (stepMOVC6 d code i size).2 = some next) :
    i + 1 ≤ next ∧ next ≤ size := by
  have hA := decode_rm_bounds d (byteAtD d code (i + 1)) code (i + 2) size
  simp only [stepMOVC6] at h
  split_ifs at h <;> simp only [Option.some.injEq] at h <;> omega

theorem stepMOVC7_next (d : Nat) (code : List Nat) (i size next : Nat)
    (hi : i < size) (h : (stepMOVC7 d code i size).2 = some next) :
    i + 1 ≤ next ∧ next ≤ size := by
  have hA := decode_rm_bounds d (byteAtD d code (i + 1)) code (i + 2) size
  simp only [stepMOVC7] at h
  split_ifs at h <;> simp only [Option.some.injEq] at h <;> omega

theorem stepLEA_next (d : Nat) (code : List Nat) (i size next : Nat)
    (hi : i < size) (h : (stepLEA d code i size).2 = some next) :
    i + 1 ≤ next ∧ next ≤ size := by
  have hA := decode_rm_bounds d (byteAtD d code (i + 1)) code (i + 2) size
  simp only [stepLEA] at h
  split_ifs at h <;> simp only [Option.some.injEq] at h <;> omega

theorem stepTEST_next (d : Nat) (code : List Nat) (i size next : Nat)
    (hi : i < size) (h : (stepTEST d code i size).2 = some next) :
    i + 1 ≤ next ∧ next ≤ size := by
  have hA := decode_rm_bounds d (byteAtD d code (i + 1)) code (i + 2) size
  simp only [stepTEST] at h
  split_ifs at h <;> simp only [Option.some.injEq] at h <;> omega

theorem stepXCHG_next (d : Nat) (code : List Nat) (i size next : Nat)
    (hi : i < size) (h : (stepXCHG d code i size).2 = some next) :
    i + 1 ≤ next ∧ next ≤ size := by
  have hA := decode_rm_bounds d (byteAtD d code (i + 1)) code (i + 2) size
  simp only [stepXCHG] at h
  split_ifs at h <;> simp only [Option.some.injEq] at h <;> omega

theorem stepShift_next (d : Nat) (code : List Nat) (i size opcode next : Nat)
    (hi : i < size) (h : (stepShift d code i size opcode).2 = some next) :
    i + 1 ≤ next ∧ next ≤ size := by
  have hA := decode_rm_bounds d (byteAtD d code (i + 1)) code (i + 2) size
  simp only [stepShift] at h
  split_ifs at h <;> simp only [Option.some.injEq] at h <;> omega

theorem stepF6F7_next (d : Nat) (code : List Nat) (i size opcode next : Nat)
    (hi : i < size) (h : (stepF6F7 d code i size opcode).2 = some next) :
    i + 1 ≤ next ∧ next ≤ size := by
  have hA := decode_rm_bounds d (byteAtD d code (i + 1)) code (i + 2) size
  simp only [stepF6F7] at h
  split_ifs at h <;> simp only [Option.some.injEq] at h <;> omega

theorem step0F_next (d : Nat) (code : List Nat) (i size next : Nat)
    (hi : i < size) (h : (step0F d code i size).2 = some next) :
    i + 1 ≤ next ∧ next ≤ size := by
  have hA := decode_rm_bounds d (byteAtD d code (i + 2)) code (i + 3) size
  simp only [step0F] at h
  split_ifs at h <;> simp only [Option.some.injEq] at h <;> omega

theorem stepFF_next (d : Nat) (code : List Nat) (i size next : Nat)
    (hi : i < size) (h : (stepFF d code i size).2 = some next) :
    i + 1 ≤ next ∧ next ≤ size := by
  have hA := decode_rm_bounds d (byteAtD d code (i + 1)) code (i + 2) size
  simp only [stepFF] at h
  split_ifs at h <;> simp only [Option.some.injEq] at h <;> omega

theorem stepImm8_next (d : Nat) (code : List Nat) (i size next : Nat)
    (mn inc : String) (hi : i < size)
    (h : (stepImm8 d code i size mn inc).2 = some next) :
    i + 1 ≤ next ∧ next ≤ size := by
  simp only [stepImm8] at h
  split_ifs at h <;> simp only [Option.some.injEq] at h <;> omega

theorem stepImm32_next (d : Nat) (code : List Nat) (i size next : Nat)
    (mn inc : String) (hi : i < size)
    (h : (stepImm32 d code i size mn inc).2 = some next) :
    i + 1 ≤ next ∧ next ≤ size := by
  simp only [stepImm32] at h
  split_ifs at h <;> simp only [Option.some.injEq] at h <;> omega

theorem stepRel32_next (d : Nat) (code : List Nat) (i size next : Nat)
    (mn inc : String) (hi : i < size)
    (h : (stepRel32 d code i size mn inc).2 = some next) :
    i + 1 ≤ next ∧ next ≤ size := by
  simp only [stepRel32] at h
  split_ifs at h <;> simp only [Option.some.injEq] at h <;> omega

theorem stepLOOP_next (d : Nat) (code : List Nat) (i size next : Nat)
    (hi : i < size) (h : (stepLOOP d code i size).2 = some next) :
    i + 1 ≤ next ∧ next ≤ size := by
  simp only [stepLOOP] at h
  split_ifs at h <;> simp only [Option.some.injEq] at h <;> omega

theorem stepREP_next (d : Nat) (code : List Nat) (i size next : Nat)
    (hi : i < size) (h : (stepREP d code i size).2 = some next) :
    i + 1 ≤ next ∧ next ≤ size + 1 ∧ (i + 1 < size → next ≤ size) := by
  simp only [stepREP] at h
  split_ifs at h <;> simp only [Option.some.injEq] at h <;> omega

theorem byteAtD_lt (d : Nat) (code : List Nat) (i : Nat) : byteAtD d code i < 256 :=
  Nat.mod_lt _ (by omega)

set_option maxRecDepth 4096 in
theorem branchOf_rep_inv : ∀ b, b < 256 → branchOf b = Branch.rep → b = 0xF3 := by
  decide

theorem branchOf_rep (d : Nat) (code : List Nat) (i : Nat)
    (h : branchOf (byteAtD d code i) = .rep) : byteAtD d code i = 0xF3 :=
  branchOf_rep_inv _ (byteAtD_lt d code i) h

theorem step_bounds (d : Nat) (code : List Nat) (i : Nat) (hi : i < code.length)
    (next : Nat) (h : (step d code i).2 = some next) :
    i + 1 ≤ next ∧ next ≤ code.length + 1 ∧
      (byteAtD d code i ≠ 0xF3 → next ≤ code.length) := by
  cases hb : branchOf (byteAtD d code i) <;> simp only [step, hb] at h
  all_goals try {
    simp only [Option.some.injEq] at h
    exact ⟨by omega, by omega, fun _ => by omega⟩ }
  case rep =>
    obtain ⟨a, b, c⟩ := stepREP_next _ _ _ _ _ hi h
    exact ⟨a, b, fun hne => absurd (branchOf_rep d code i hb) hne⟩
  case movRM =>
    obtain ⟨a, b⟩ := stepMOVrm_next _ _ _ _ _ _ hi h
    exact ⟨a, by omega, fun _ => b⟩
  case arith =>
    obtain ⟨a, b⟩ := stepArith_next _ _ _ _ _ _ hi h
    exact ⟨a, by omega, fun _ => b⟩
  case immArith =>
    obtain ⟨a, b⟩ := stepImmArith_next _ _ _ _ _ _ hi h
    exact ⟨a, by omega, fun _ => b⟩
  case imm8 =>
    obtain ⟨a, b⟩ := stepImm8_next _ _ _ _ _ _ _ hi h
    exact ⟨a, by omega, fun _ => b⟩
  case imm32 =>
    obtain ⟨a, b⟩ := stepImm32_next _ _ _ _ _ _ _ hi h
    exact ⟨a, by omega, fun _ => b⟩
  case rel32 =>
    obtain ⟨a, b⟩ := stepRel32_next _ _ _ _ _ _ _ hi h
    exact ⟨a, by omega, fun _ => b⟩
  case movC6 =>
    obtain ⟨a, b⟩ := stepMOVC6_next _ _ _ _ _ hi h
    exact ⟨a, by omega, fun _ => b⟩
  case movC7 =>
    obtain ⟨a, b⟩ := stepMOVC7_next _ _ _ _ _ hi h
    exact ⟨a, by omega, fun _ => b⟩
  case lea =>
    obtain ⟨a, b⟩ := stepLEA_next _ _ _ _ _ hi h
    exact ⟨a, by omega, fun _ => b⟩
  case testRM =>
    obtain ⟨a, b⟩ := stepTEST_next _ _ _ _ _ hi h
    exact ⟨a, by omega, fun _ => b⟩
  case xchg =>
    obtain ⟨a, b⟩ := stepXCHG_next _ _ _ _ _ hi h
    exact ⟨a, by omega, fun _ => b⟩
  case shift =>
    obtain ⟨a, b⟩ := stepShift_next _ _ _ _ _ _ hi h
    exact ⟨a, by omega, fun _ => b⟩
  case f6f7 =>
    obtain ⟨a, b⟩ := stepF6F7_next _ _ _ _ _ _ hi h
    exact ⟨a, by omega, fun _ => b⟩
  case esc0F =>
    obtain ⟨a, b⟩ := step0F_next _ _ _ _ _ hi h
    exact ⟨a, by omega, fun _ => b⟩
  case ff =>
    obtain ⟨a, b⟩ := stepFF_next _ _ _ _ _ hi h
    exact ⟨a, by omega, fun _ => b⟩
  case loopE2 =>
    obtain ⟨a, b⟩ := stepLOOP_next _ _ _ _ _ hi h
    exact ⟨a, by omega, fun _ => b⟩

theorem goF_oob (d : Nat) (code : List Nat) (f i : Nat) (h : ¬ i < code.length) :
    goF d code f i = [] := by
  cases f <;> simp [goF, h]

theorem goF_succ_none (d : Nat) (code : List Nat) (f i : Nat) (t : String)
    (hi : i < code.length) (hs : step d code i = (t, none)) :
    goF d code (f + 1) i = [fmtOff i ++ t] := by
  simp [goF, hi, hs]

theorem goF_succ_some (d : Nat) (code : List Nat) (f i : Nat) (t : String)
    (next : Nat) (hi : i < code.length) (hs : step d code i = (t, some next)) :
    goF d code (f + 1) i = (fmtOff i ++ t) :: goF d code f next := by
  simp [goF, hi, hs]

theorem goF_congr (d : Nat) (code : List Nat) :
    ∀ f g i, code.length - i ≤ f → code.length - i ≤ g →
      goF d code f i = goF d code g i := by
  intro f
  induction f with
  | zero =>
    intro g i hf hg
    have hni : ¬ i < code.length := by omega
    rw [goF_oob d code 0 i hni, goF_oob d code g i hni]
  | succ f ih =>
    intro g i hf hg
    by_cases hi : i < code.length
    · obtain ⟨g2, rfl⟩ : ∃ g2, g = g2 + 1 := ⟨g - 1, by omega⟩
      rcases hs : step d code i with ⟨t, o⟩
      cases o with
      | none =>
        rw [goF_succ_none d code f i t hi hs, goF_succ_none d code g2 i t hi hs]
      | some next =>
        have hadv := (step_bounds d code i hi next (by rw [hs])).1
        rw [goF_succ_some d code f i t next hi hs,
          goF_succ_some d code g2 i t next hi hs]
        exact congrArg _ (ih g2 next (by omega) (by omega))
    · rw [goF_oob d code (f + 1) i hi, goF_oob d code g i hi]

theorem goF_length (d : Nat) (code : List Nat) :
    ∀ f i, (goF d code f i).length ≤ f := by
  intro f
  induction f with
  | zero => intro i; simp [goF]
  | succ f ih =>
    intro i
    by_cases hi : i < code.length
    · rcases hs : step d code i with ⟨t, o⟩
      cases o with
      | none => rw [goF_succ_none d code f i t hi hs]; simp
      | some next =>
        rw [goF_succ_some d code f i t next hi hs]
        simpa using ih next
    · rw [goF_oob d code (f + 1) i hi]; simp

theorem disasmFrom_halt (d : Nat) (code : List Nat) (i : Nat) (t : String)
    (hi : i < code.length) (hs : step d code i = (t, none)) :
    disasmFrom d code i = [fmtOff i ++ t] := by
  unfold disasmFrom
  obtain ⟨k, hk⟩ : ∃ k, code.length - i = k + 1 := ⟨code.length - i - 1, by omega⟩
  rw [hk, goF_succ_none d code k i t hi hs]

theorem disasmFrom_cons (d : Nat) (code : List Nat) (i : Nat) (t : String)
    (next : Nat) (hi : i < code.length) (hs : step d code i = (t, some next)) :
    disasmFrom d code i = (fmtOff i ++ t) :: disasmFrom d code next := by
  unfold disasmFrom
  obtain ⟨k, hk⟩ : ∃ k, code.length - i = k + 1 := ⟨code.length - i - 1, by omega⟩
  have hadv := (step_bounds d code i hi next (by rw [hs])).1
  rw [hk, goF_succ_some d code k i t next hi hs]
  exact congrArg _ (goF_congr d code k (code.length - next) next (by omega) le_rfl)

theorem disassemble_eq_disasmFrom (code : List Nat) :
    disassemble code = disasmFrom 0 code 0 := rfl

theorem byteAtD_irrel (d d2 : Nat) (code : List Nat) (i : Nat)
    (h : i < code.length) : byteAtD d code i = byteAtD d2 code i := by
  unfold byteAtD
  rw [List.getD_eq_getElem code d h, List.getD_eq_getElem code d2 h]

theorem le32_irrel (d d2 : Nat) (code : List Nat) (i : Nat)
    (h : i + 4 ≤ code.length) : le32 d code i = le32 d2 code i := by
  unfold le32
  rw [byteAtD_irrel d d2 code i (by omega), byteAtD_irrel d d2 code (i + 1) (by omega),
    byteAtD_irrel d d2 code (i + 2) (by omega), byteAtD_irrel d d2 code (i + 3) (by omega)]

theorem dispSuffix_irrel (d d2 : Nat) (code : List Nat) (index size m rm : Nat)
    (hs : size ≤ code.length) :
    dispSuffix d code index size m rm = dispSuffix d2 code index size m rm := by
  simp only [dispSuffix]
  by_cases h1 : m = 1
  · simp only [if_pos h1]
    by_cases h2 : index ≥ size
    · simp [h2]
    · simp only [if_neg h2, byteAtD_irrel d d2 code index (by omega)]
  · simp only [if_neg h1]
    by_cases h3 : m = 2 ∨ (m = 0 ∧ rm = 5)
    · simp only [if_pos h3]
      by_cases h4 : index + 4 > size
      · simp [h4]
      · simp only [if_neg h4, le32_irrel d d2 code index (by omega)]
    · simp [h3]

theorem decode_rm_irrel (d d2 modrm : Nat) (code : List Nat) (index size : Nat)
    (hs : size ≤ code.length) :
    decode_rm_operand d modrm code index size
      = decode_rm_operand d2 modrm code index size := by
  simp only [decode_rm_operand]
  by_cases h1 : modrm / 64 = 3
  · simp [h1]
  · simp only [if_neg h1]
    by_cases h2 : modrm % 8 = 4
    · simp only [if_pos h2]
      by_cases h3 : index ≥ size
      · simp [h3]
      · simp only [if_neg h3, byteAtD_irrel d d2 code index (by omega),
          dispSuffix_irrel d d2 code (index + 1) size (modrm / 64) (modrm % 8) hs]
    · simp only [if_neg h2,
        dispSuffix_irrel d d2 code index size (modrm / 64) (modrm % 8) hs]

theorem stepMOVrm_irrel (d d2 : Nat) (code : List Nat) (i size opcode : Nat)
    (hs : size ≤ code.length) :
    stepMOVrm d code i size opcode = stepMOVrm d2 code i size opcode := by
  simp only [stepMOVrm]
  by_cases h : i + 1 ≥ size
  · simp [h]
  · simp only [if_neg h, byteAtD_irrel d d2 code (i + 1) (by omega),
      decode_rm_irrel d d2 (byteAtD d2 code (i + 1)) code (i + 2) size hs]

theorem stepArith_irrel (d d2 : Nat) (code : List Nat) (i size opcode : Nat)
    (hs : size ≤ code.length) :
    stepArith d code i size opcode = stepArith d2 code i size opcode := by
  simp only [stepArith]
  by_cases h : i + 1 ≥ size
  · simp [h]
  · simp only [if_neg h, byteAtD_irrel d d2 code (i + 1) (by omega),
      decode_rm_irrel d d2 (byteAtD d2 code (i + 1)) code (i + 2) size hs]

theorem stepImmArith_irrel (d d2 : Nat) (code : List Nat) (i size opcode : Nat)
    (hs : size ≤ code.length) :
    stepImmArith d code i size opcode = stepImmArith d2 code i size opcode := by
  simp only [stepImmArith]
  by_cases h : i + 1 ≥ size
  · simp [h]
  · simp only [if_neg h, byteAtD_irrel d d2 code (i + 1) (by omega),
      decode_rm_irrel d d2 (byteAtD d2 code (i + 1)) code (i + 2) size hs]
    split_ifs <;>
      first
        | rfl
        | rw [byteAtD_irrel d d2 code _ (by omega)]
        | rw [le32_irrel d d2 code _ (by omega)]

theorem stepMOVC6_irrel (d d2 : Nat) (code : List Nat) (i size : Nat)
    (hs : size ≤ code.length) :
    stepMOVC6 d code i size = stepMOVC6 d2 code i size := by
  simp only [stepMOVC6]
  by_cases h : i + 1 ≥ size
  · simp [h]
  · simp only [if_neg h, byteAtD_irrel d d2 code (i + 1) (by omega),
      decode_rm_irrel d d2 (byteAtD d2 code (i + 1)) code (i + 2) size hs]
    split_ifs <;> first | rfl | rw [byteAtD_irrel d d2 code _ (by omega)]

theorem stepMOVC7_irrel (d d2 : Nat) (code : List Nat) (i size : Nat)
    (hs : size ≤ code.length) :
    stepMOVC7 d code i size = stepMOVC7 d2 code i size := by
  simp only [stepMOVC7]
  by_cases h : i + 1 ≥ size
  · simp [h]
  · simp only [if_neg h, byteAtD_irrel d d2 code (i + 1) (by omega),
      decode_rm_irrel d d2 (byteAtD d2 code (i + 1)) code (i + 2) size hs]
    split_ifs <;> first | rfl | rw [le32_irrel d d2 code _ (by omega)]

theorem stepLEA_irrel (d d2 : Nat) (code : List Nat) (i size : Nat)
    (hs : size ≤ code.length) :
    stepLEA d code i size = stepLEA d2 code i size := by
  simp only [stepLEA]
  by_cases h : i + 1 ≥ size
  · simp [h]
  · simp only [if_neg h, byteAtD_irrel d d2 code (i + 1) (by omega),
      decode_rm_irrel d d2 (byteAtD d2 code (i + 1)) code (i + 2) size hs]

theorem stepTEST_irrel (d d2 : Nat) (code : List Nat) (i size : Nat)
    (hs : size ≤ code.length) :
    stepTEST d code i size = stepTEST d2 code i size := by
  simp only [stepTEST]
  by_cases h : i + 1 ≥ size
  · simp [h]
  · simp only [if_neg h, byteAtD_irrel d d2 code (i + 1) (by omega),
      decode_rm_irrel d d2 (byteAtD d2 code (i + 1)) code (i + 2) size hs]

theorem stepXCHG_irrel (d d2 : Nat) (code : List Nat) (i size : Nat)
    (hs : size ≤ code.length) :
    stepXCHG d code i size = stepXCHG d2 code i size := by
  simp only [stepXCHG]
  by_cases h : i + 1 ≥ size
  · simp [h]
  · simp only [if_neg h, byteAtD_irrel d d2 code (i + 1) (by omega),
      decode_rm_irrel d d2 (byteAtD d2 code (i + 1)) code (i + 2) size hs]

theorem stepShift_irrel (d d2 : Nat) (code : List Nat) (i size opcode : Nat)
    (hs : size ≤ code.length) :
    stepShift d code i size opcode = stepShift d2 code i size opcode := by
  simp only [stepShift]
  by_cases h : i + 1 ≥ size
  · simp [h]
  · simp only [if_neg h, byteAtD_irrel d d2 code (i + 1) (by omega),
      decode_rm_irrel d d2 (byteAtD d2 code (i + 1)) code (i + 2) size hs]
    split_ifs <;> first | rfl | rw [byteAtD_irrel d d2 code _ (by omega)]

theorem stepF6F7_irrel (d d2 : Nat) (code : List Nat) (i size opcode : Nat)
    (hs : size ≤ code.length) :
    stepF6F7 d code i size opcode = stepF6F7 d2 code i size opcode := by
  simp only [stepF6F7]
  by_cases h : i + 1 ≥ size
  · simp [h]
  · simp only [if_neg h, byteAtD_irrel d d2 code (i + 1) (by omega),
      decode_rm_irrel d d2 (byteAtD d2 code (i + 1)) code (i + 2) size hs]
    split_ifs <;>
      first
        | rfl
        | rw [byteAtD_irrel d d2 code _ (by omega)]
        | rw [le32_irrel d d2 code _ (by omega)]

theorem step0F_irrel (d d2 : Nat) (code : List Nat) (i size : Nat)
    (hs : size ≤ code.length) :
    step0F d code i size = step0F d2 code i size := by
  simp only [step0F]
  by_cases h : i + 2 ≥ size
  · simp [h]
  · simp only [if_neg h, byteAtD_irrel d d2 code (i + 1) (by omega),
      byteAtD_irrel d d2 code (i + 2) (by omega),
      decode_rm_irrel d d2 (byteAtD d2 code (i + 2)) code (i + 3) size hs]

theorem stepFF_irrel (d d2 : Nat) (code : List Nat) (i size : Nat)
    (hs : size ≤ code.length) :
    stepFF d code i size = stepFF d2 code i size := by
  simp only [stepFF]
  by_cases h : i + 1 ≥ size
  · simp [h]
  · simp only [if_neg h, byteAtD_irrel d d2 code (i + 1) (by omega),
      decode_rm_irrel d d2 (byteAtD d2 code (i + 1)) code (i + 2) size hs]

theorem stepImm8_irrel (d d2 : Nat) (code : List Nat) (i size : Nat)
    (mn inc : String) (hs : size ≤ code.length) :
    stepImm8 d code i size mn inc = stepImm8 d2 code i size mn inc := by
  simp only [stepImm8]
  by_cases h : i + 1 ≥ size
  · simp [h]
  · simp only [if_neg h, byteAtD_irrel d d2 code (i + 1) (by omega)]

theorem stepImm32_irrel (d d2 : Nat) (code : List Nat) (i size : Nat)
    (mn inc : String) (hs : size ≤ code.length) :
    stepImm32 d code i size mn inc = stepImm32 d2 code i size mn inc := by
  simp only [stepImm32]
  by_cases h : i + 4 ≥ size
  · simp [h]
  · simp only [if_neg h, le32_irrel d d2 code (i + 1) (by omega)]

theorem stepRel32_irrel (d d2 : Nat) (code : List Nat) (i size : Nat)
    (mn inc : String) (hs : size ≤ code.length) :
    stepRel32 d code i size mn inc = stepRel32 d2 code i size mn inc := by
  simp only [stepRel32]
  by_cases h : i + 4 ≥ size
  · simp [h]
  · simp only [if_neg h, le32_irrel d d2 code (i + 1) (by omega)]

theorem stepLOOP_irrel (d d2 : Nat) (code : List Nat) (i size : Nat)
    (hs : size ≤ code.length) :
    stepLOOP d code i size = stepLOOP d2 code i size := by
  simp only [stepLOOP]
  by_cases h : i + 1 ≥ size
  · simp [h]
  · simp only [if_neg h, byteAtD_irrel d d2 code (i + 1) (by omega)]

theorem stepREP_irrel (d d2 : Nat) (code : List Nat) (i size : Nat)
    (hs : size ≤ code.length) :
    stepREP d code i size = stepREP d2 code i size := by
  simp only [stepREP]
  by_cases h : i + 1 < size
  · simp only [if_pos h, byteAtD_irrel d d2 code (i + 1) (by omega)]
  · simp [h]

theorem step_irrel (d d2 : Nat) (code : List Nat) (i : Nat)
    (hi : i < code.length) : step d code i = step d2 code i := by
  simp only [step, byteAtD_irrel d d2 code i hi]
  cases branchOf (byteAtD d2 code i)
  case movRM => exact stepMOVrm_irrel d d2 code i code.length _ le_rfl
  case arith => exact stepArith_irrel d d2 code i code.length _ le_rfl
  case immArith => exact stepImmArith_irrel d d2 code i code.length _ le_rfl
  case regOp mn => rfl
  case fixed s => rfl
  case imm8 mn inc => exact stepImm8_irrel d d2 code i code.length mn inc le_rfl
  case imm32 mn inc => exact stepImm32_irrel d d2 code i code.length mn inc le_rfl
  case rel32 mn inc => exact stepRel32_irrel d d2 code i code.length mn inc le_rfl
  case movC6 => exact stepMOVC6_irrel d d2 code i code.length le_rfl
  case movC7 => exact stepMOVC7_irrel d d2 code i code.length le_rfl
  case lea => exact stepLEA_irrel d d2 code i code.length le_rfl
  case testRM => exact stepTEST_irrel d d2 code i code.length le_rfl
  case xchg => exact stepXCHG_irrel d d2 code i code.length le_rfl
  case shift => exact stepShift_irrel d d2 code i code.length _ le_rfl
  case f6f7 => exact stepF6F7_irrel d d2 code i code.length _ le_rfl
  case esc0F => exact step0F_irrel d d2 code i code.length le_rfl
  case ff => exact stepFF_irrel d d2 code i code.length le_rfl
  case loopE2 => exact stepLOOP_irrel d d2 code i code.length le_rfl
  case rep => exact stepREP_irrel d d2 code i code.length le_rfl
  case unknown => rfl

theorem stepMOVrm_none (d : Nat) (code : List Nat) (i size opcode : Nat) :
    (stepMOVrm d code i size opcode).2 = none ↔ i + 1 ≥ size := by
  simp only [stepMOVrm]
  split_ifs <;> simp <;> omega

theorem stepArith_none (d : Nat) (code : List Nat) (i size opcode : Nat) :
    (stepArith d code i size opcode).2 = none ↔ i + 1 ≥ size := by
  simp only [stepArith]
  split_ifs <;> simp <;> omega

theorem stepImmArith_none (d : Nat) (code : List Nat) (i size opcode : Nat) :
    (stepImmArith d code i size opcode).2 = none ↔
      i + 1 ≥ size ∨
        (opcode = 0x81 ∧
          (decode_rm_operand d (byteAtD d code (i + 1)) code (i + 2) size).2 + 4 > size) ∨
        (opcode ≠ 0x81 ∧
          (decode_rm_operand d (byteAtD d code (i + 1)) code (i + 2) size).2 ≥ size) := by
  simp only [stepImmArith]
  split_ifs <;> simp <;> omega

theorem stepMOVC6_none (d : Nat) (code : List Nat) (i size : Nat) :
    (stepMOVC6 d code i size).2 = none ↔
      i + 1 ≥ size ∨
        (decode_rm_operand d (byteAtD d code (i + 1)) code (i + 2) size).2 ≥ size := by
  simp only [stepMOVC6]
  split_ifs <;> simp <;> omega

theorem stepMOVC7_none (d : Nat) (code : List Nat) (i size : Nat) :
    (stepMOVC7 d code i size).2 = none ↔
      i + 1 ≥ size ∨
        (decode_rm_operand d (byteAtD d code (i + 1)) code (i + 2) size).2 + 4 > size := by
  simp only [stepMOVC7]
  split_ifs <;> simp <;> omega

theorem stepLEA_none (d : Nat) (code : List Nat) (i size : Nat) :
    (stepLEA d code i size).2 = none ↔ i + 1 ≥ size := by
  simp only [stepLEA]
  split_ifs <;> simp <;> omega

theorem stepTEST_none (d : Nat) (code : List Nat) (i size : Nat) :
    (stepTEST d code i size).2 = none ↔ i + 1 ≥ size := by
  simp only [stepTEST]
  split_ifs <;> simp <;> omega

theorem stepXCHG_none (d : Nat) (code : List Nat) (i size : Nat) :
    (stepXCHG d code i size).2 = none ↔ i + 1 ≥ size := by
  simp only [stepXCHG]
  split_ifs <;> simp <;> omega

theorem stepShift_none (d : Nat) (code : List Nat) (i size opcode : Nat) :
    (stepShift d code i size opcode).2 = none ↔
      i + 1 ≥ size ∨
        ((opcode = 0xC0 ∨ opcode = 0xC1) ∧
          (decode_rm_operand d (byteAtD d code (i + 1)) code (i + 2) size).2 ≥ size) := by
  simp only [stepShift]
  split_ifs <;> simp <;> omega

theorem stepF6F7_none (d : Nat) (code : List Nat) (i size opcode : Nat) :
    (stepF6F7 d code i size opcode).2 = none ↔
      i + 1 ≥ size ∨
        ((byteAtD d code (i + 1) / 8 % 8 = 0 ∨ byteAtD d code (i + 1) / 8 % 8 = 1) ∧
          opcode = 0xF6 ∧
          (decode_rm_operand d (byteAtD d code (i + 1)) code (i + 2) size).2 ≥ size) ∨
        ((byteAtD d code (i + 1) / 8 % 8 = 0 ∨ byteAtD d code (i + 1) / 8 % 8 = 1) ∧
          opcode ≠ 0xF6 ∧
          (decode_rm_operand d (byteAtD d code (i + 1)) code (i + 2) size).2 + 4 > size) := by
  simp only [stepF6F7]
  split_ifs <;> simp <;> omega

theorem step0F_none (d : Nat) (code : List Nat) (i size : Nat) :
    (step0F d code i size).2 = none ↔ False := by
  simp only [step0F]
  split_ifs <;> simp

theorem stepFF_none (d : Nat) (code : List Nat) (i size : Nat) :
    (stepFF d code i size).2 = none ↔ i + 1 ≥ size := by
  simp only [stepFF]
  split_ifs <;> simp <;> omega

theorem stepImm8_none (d : Nat) (code : List Nat) (i size : Nat) (mn inc : String) :
    (stepImm8 d code i size mn inc).2 = none ↔ i + 1 ≥ size := by
  simp only [stepImm8]
  split_ifs <;> simp <;> omega

theorem stepImm32_none (d : Nat) (code : List Nat) (i size : Nat) (mn inc : String) :
    (stepImm32 d code i size mn inc).2 = none ↔ i + 4 ≥ size := by
  simp only [stepImm32]
  split_ifs <;> simp <;> omega

theorem stepRel32_none (d : Nat) (code : List Nat) (i size : Nat) (mn inc : String) :
    (stepRel32 d code i size mn inc).2 = none ↔ i + 4 ≥ size := by
  simp only [stepRel32]
  split_ifs <;> simp <;> omega

theorem stepLOOP_none (d : Nat) (code : List Nat) (i size : Nat) :
    (stepLOOP d code i size).2 = none ↔ i + 1 ≥ size := by
  simp only [stepLOOP]
  split_ifs <;> simp <;> omega

theorem stepREP_none (d : Nat) (code : List Nat) (i size : Nat) :
    (stepREP d code i size).2 = none ↔ False := by
  simp only [stepREP]
  split_ifs <;> simp

set_option maxRecDepth 8192 in
theorem branchOf_inv0 : ∀ b, b < 256 → ((branchOf b).tag = 0 → 0x88 ≤ b ∧ b ≤ 0x8B) := by
  decide

set_option maxRecDepth 8192 in
theorem branchOf_inv1 : ∀ b, b < 256 → ((branchOf b).tag = 1 → b < 0x40 ∧ b % 8 < 6) := by
  decide

set_option maxRecDepth 8192 in
theorem branchOf_inv2 : ∀ b, b < 256 → ((branchOf b).tag = 2 → b = 0x80 ∨ b = 0x81 ∨ b = 0x83) := by
  decide

set_option maxRecDepth 8192 in
theorem branchOf_inv3 : ∀ b, b < 256 → ((branchOf b).tag = 3 → 0x40 ≤ b ∧ b ≤ 0x5F) := by
  decide

set_option maxRecDepth 8192 in
theorem branchOf_inv4 : ∀ b, b < 256 → ((branchOf b).tag = 4 → b = 0x90 ∨ b = 0xC3 ∨ b = 0xCC ∨ (0xA4 ≤ b ∧ b ≤ 0xA7) ∨ (0xAA ≤ b ∧ b ≤ 0xAF) ∨ b = 0xF0 ∨ b = 0xF2) := by
  decide

set_option maxRecDepth 8192 in
theorem branchOf_inv5 : ∀ b, b < 256 → ((branchOf b).tag = 5 → (0xB0 ≤ b ∧ b ≤ 0xB7) ∨ b = 0x6A ∨ (0x70 ≤ b ∧ b ≤ 0x7F) ∨ b = 0xEB ∨ b = 0xE0 ∨ b = 0xE1 ∨ b = 0xE3) := by
  decide

set_option maxRecDepth 8192 in
theorem branchOf_inv6 : ∀ b, b < 256 → ((branchOf b).tag = 6 → (0xB8 ≤ b ∧ b ≤ 0xBF) ∨ b = 0x68) := by
  decide

set_option maxRecDepth 8192 in
theorem branchOf_inv7 : ∀ b, b < 256 → ((branchOf b).tag = 7 → b = 0xE8 ∨ b = 0xE9) := by
  decide

set_option maxRecDepth 8192 in
theorem branchOf_inv8 : ∀ b, b < 256 → ((branchOf b).tag = 8 → b = 0xC6) := by
  decide

set_option maxRecDepth 8192 in
theorem branchOf_inv9 : ∀ b, b < 256 → ((branchOf b).tag = 9 → b = 0xC7) := by
  decide

set_option maxRecDepth 8192 in
theorem branchOf_inv10 : ∀ b, b < 256 → ((branchOf b).tag = 10 → b = 0x8D) := by
  decide

set_option maxRecDepth 8192 in
theorem branchOf_inv11 : ∀ b, b < 256 → ((branchOf b).tag = 11 → b = 0x84 ∨ b = 0x85) := by
  decide

set_option maxRecDepth 8192 in
theorem branchOf_inv12 : ∀ b, b < 256 → ((branchOf b).tag = 12 → b = 0x86 ∨ b = 0x87) := by
  decide

set_option maxRecDepth 8192 in
theorem branchOf_inv13 : ∀ b, b < 256 → ((branchOf b).tag = 13 → b = 0xC0 ∨ b = 0xC1 ∨ (0xD0 ≤ b ∧ b ≤ 0xD3)) := by
  decide

set_option maxRecDepth 8192 in
theorem branchOf_inv14 : ∀ b, b < 256 → ((branchOf b).tag = 14 → b = 0xF6 ∨ b = 0xF7) := by
  decide

set_option maxRecDepth 8192 in
theorem branchOf_inv15 : ∀ b, b < 256 → ((branchOf b).tag = 15 → b = 0x0F) := by
  decide

set_option maxRecDepth 8192 in
theorem branchOf_inv16 : ∀ b, b < 256 → ((branchOf b).tag = 16 → b = 0xFF) := by
  decide

set_option maxRecDepth 8192 in
theorem branchOf_inv17 : ∀ b, b < 256 → ((branchOf b).tag = 17 → b = 0xE2) := by
  decide

set_option maxRecDepth 8192 in
theorem branchOf_inv18 : ∀ b, b < 256 → ((branchOf b).tag = 18 → b = 0xF3) := by
  decide

set_option maxRecDepth 8192 in
theorem branchOf_unknown_iff : ∀ b, b < 256 →
    ((branchOf b).tag = 19 ↔ ¬ knownPrimary b) := by
  decide

theorem terminalShortage_def (d : Nat) (code : List Nat) (i : Nat) :
    terminalShortage d code i ↔
      (((0x88 ≤ byteAtD d code i ∧ byteAtD d code i ≤ 0x8B) ∧ i + 1 ≥ code.length) ∨
        ((byteAtD d code i < 0x40 ∧ byteAtD d code i % 8 < 6) ∧ i + 1 ≥ code.length) ∨
        ((byteAtD d code i = 0x80 ∨ byteAtD d code i = 0x81 ∨ byteAtD d code i = 0x83) ∧ i + 1 ≥ code.length) ∨
        (byteAtD d code i = 0x81 ∧ (decode_rm_operand d (byteAtD d code (i + 1)) code (i + 2) code.length).2 + 4 > code.length) ∨
        ((byteAtD d code i = 0x80 ∨ byteAtD d code i = 0x83) ∧ (decode_rm_operand d (byteAtD d code (i + 1)) code (i + 2) code.length).2 ≥ code.length) ∨
        (((0xB0 ≤ byteAtD d code i ∧ byteAtD d code i ≤ 0xB7) ∨ byteAtD d code i = 0x6A ∨ (0x70 ≤ byteAtD d code i ∧ byteAtD d code i ≤ 0x7F) ∨ byteAtD d code i = 0xEB ∨
            byteAtD d code i = 0xE0 ∨ byteAtD d code i = 0xE1 ∨ byteAtD d code i = 0xE3) ∧ i + 1 ≥ code.length) ∨
        (((0xB8 ≤ byteAtD d code i ∧ byteAtD d code i ≤ 0xBF) ∨ byteAtD d code i = 0x68 ∨ byteAtD d code i = 0xE8 ∨ byteAtD d code i = 0xE9) ∧ i + 4 ≥ code.length) ∨
        (byteAtD d code i = 0xC6 ∧ (i + 1 ≥ code.length ∨ (decode_rm_operand d (byteAtD d code (i + 1)) code (i + 2) code.length).2 ≥ code.length)) ∨
        (byteAtD d code i = 0xC7 ∧ (i + 1 ≥ code.length ∨ (decode_rm_operand d (byteAtD d code (i + 1)) code (i + 2) code.length).2 + 4 > code.length)) ∨
        ((byteAtD d code i = 0x8D ∨ byteAtD d code i = 0x84 ∨ byteAtD d code i = 0x85 ∨ byteAtD d code i = 0x86 ∨ byteAtD d code i = 0x87) ∧ i + 1 ≥ code.length) ∨
        ((byteAtD d code i = 0xC0 ∨ byteAtD d code i = 0xC1 ∨ (0xD0 ≤ byteAtD d code i ∧ byteAtD d code i ≤ 0xD3)) ∧ i + 1 ≥ code.length) ∨
        ((byteAtD d code i = 0xC0 ∨ byteAtD d code i = 0xC1) ∧ (decode_rm_operand d (byteAtD d code (i + 1)) code (i + 2) code.length).2 ≥ code.length) ∨
        ((byteAtD d code i = 0xF6 ∨ byteAtD d code i = 0xF7) ∧ i + 1 ≥ code.length) ∨
        (byteAtD d code i = 0xF6 ∧ (byteAtD d code (i + 1) / 8 % 8 = 0 ∨ byteAtD d code (i + 1) / 8 % 8 = 1) ∧
          (decode_rm_operand d (byteAtD d code (i + 1)) code (i + 2) code.length).2 ≥ code.length) ∨
        (byteAtD d code i = 0xF7 ∧ (byteAtD d code (i + 1) / 8 % 8 = 0 ∨ byteAtD d code (i + 1) / 8 % 8 = 1) ∧
          (decode_rm_operand d (byteAtD d code (i + 1)) code (i + 2) code.length).2 + 4 > code.length) ∨
        (byteAtD d code i = 0xFF ∧ i + 1 ≥ code.length) ∨
        (byteAtD d code i = 0xE2 ∧ i + 1 ≥ code.length)) := Iff.rfl

set_option maxHeartbeats 1000000 in
theorem step_none_iff (d : Nat) (code : List Nat) (i : Nat)
    (hi : i < code.length) :
    (step d code i).2 = none ↔ terminalShortage d code i := by
  have h256 := byteAtD_lt d code i
  cases hb : branchOf (byteAtD d code i) <;> simp only [step, hb]
  case movRM =>
    obtain ⟨hx1, hx2⟩ := branchOf_inv0 _ h256 (by rw [hb]; rfl)
    rw [stepMOVrm_none, terminalShortage_def]
    constructor
    · intro h
      exact Or.inl ⟨⟨hx1, hx2⟩, h⟩
    · intro h
      rcases h with ⟨p, q⟩ | ⟨p, q⟩ | ⟨p, q⟩ | ⟨p, q⟩ | ⟨p, q⟩ | ⟨p, q⟩ | ⟨p, q⟩ | ⟨p, q⟩ | ⟨p, q⟩ | ⟨p, q⟩ | ⟨p, q⟩ | ⟨p, q⟩ | ⟨p, q⟩ | ⟨p, q⟩ | ⟨p, q⟩ | ⟨p, q⟩ | ⟨p, q⟩
      all_goals omega
  case arith =>
    obtain ⟨hx1, hx2⟩ := branchOf_inv1 _ h256 (by rw [hb]; rfl)
    rw [stepArith_none, terminalShortage_def]
    constructor
    · intro h
      exact Or.inr (Or.inl ⟨⟨hx1, hx2⟩, h⟩)
    · intro h
      rcases h with ⟨p, q⟩ | ⟨p, q⟩ | ⟨p, q⟩ | ⟨p, q⟩ | ⟨p, q⟩ | ⟨p, q⟩ | ⟨p, q⟩ | ⟨p, q⟩ | ⟨p, q⟩ | ⟨p, q⟩ | ⟨p, q⟩ | ⟨p, q⟩ | ⟨p, q⟩ | ⟨p, q⟩ | ⟨p, q⟩ | ⟨p, q⟩ | ⟨p, q⟩
      all_goals omega
  case immArith =>
    have hx := branchOf_inv2 _ h256 (by rw [hb]; rfl)
    rw [stepImmArith_none, terminalShortage_def]
    constructor
    · intro h
      rcases h with h | ⟨e, r⟩ | ⟨ne, r⟩
      · exact Or.inr (Or.inr (Or.inl ⟨hx, h⟩))
      · exact Or.inr (Or.inr (Or.inr (Or.inl ⟨e, r⟩)))
      · rcases hx with e2 | e2 | e2
        · exact Or.inr (Or.inr (Or.inr (Or.inr (Or.inl ⟨Or.inl e2, r⟩))))
        · exact absurd e2 ne
        · exact Or.inr (Or.inr (Or.inr (Or.inr (Or.inl ⟨Or.inr e2, r⟩))))
    · intro h
      rcases h with ⟨p, q⟩ | ⟨p, q⟩ | ⟨p, q⟩ | ⟨p, q⟩ | ⟨p, q⟩ | ⟨p, q⟩ | ⟨p, q⟩ | ⟨p, q⟩ | ⟨p, q⟩ | ⟨p, q⟩ | ⟨p, q⟩ | ⟨p, q⟩ | ⟨p, q⟩ | ⟨p, q⟩ | ⟨p, q⟩ | ⟨p, q⟩ | ⟨p, q⟩
      all_goals omega
  case regOp mn =>
    obtain ⟨hx1, hx2⟩ := branchOf_inv3 _ h256 (by rw [hb]; rfl)
    rw [terminalShortage_def]
    simp only [Option.some_ne_none, false_iff]
    intro h
    rcases h with ⟨p, q⟩ | ⟨p, q⟩ | ⟨p, q⟩ | ⟨p, q⟩ | ⟨p, q⟩ | ⟨p, q⟩ | ⟨p, q⟩ | ⟨p, q⟩ | ⟨p, q⟩ | ⟨p, q⟩ | ⟨p, q⟩ | ⟨p, q⟩ | ⟨p, q⟩ | ⟨p, q⟩ | ⟨p, q⟩ | ⟨p, q⟩ | ⟨p, q⟩
    all_goals omega
  case fixed t =>
    have hx := branchOf_inv4 _ h256 (by rw [hb]; rfl)
    rw [terminalShortage_def]
    simp only [Option.some_ne_none, false_iff]
    intro h
    rcases h with ⟨p, q⟩ | ⟨p, q⟩ | ⟨p, q⟩ | ⟨p, q⟩ | ⟨p, q⟩ | ⟨p, q⟩ | ⟨p, q⟩ | ⟨p, q⟩ | ⟨p, q⟩ | ⟨p, q⟩ | ⟨p, q⟩ | ⟨p, q⟩ | ⟨p, q⟩ | ⟨p, q⟩ | ⟨p, q⟩ | ⟨p, q⟩ | ⟨p, q⟩
    all_goals omega
  case imm8 mn inc =>
    have hx := branchOf_inv5 _ h256 (by rw [hb]; rfl)
    rw [stepImm8_none, terminalShortage_def]
    constructor
    · intro h
      exact Or.inr (Or.inr (Or.inr (Or.inr (Or.inr (Or.inl ⟨hx, h⟩)))))
    · intro h
      rcases h with ⟨p, q⟩ | ⟨p, q⟩ | ⟨p, q⟩ | ⟨p, q⟩ | ⟨p, q⟩ | ⟨p, q⟩ | ⟨p, q⟩ | ⟨p, q⟩ | ⟨p, q⟩ | ⟨p, q⟩ | ⟨p, q⟩ | ⟨p, q⟩ | ⟨p, q⟩ | ⟨p, q⟩ | ⟨p, q⟩ | ⟨p, q⟩ | ⟨p, q⟩
      all_goals omega
  case imm32 mn inc =>
    have hx := branchOf_inv6 _ h256 (by rw [hb]; rfl)
    rw [stepImm32_none, terminalShortage_def]
    constructor
    · intro h
      rcases hx with hx | hx
      · exact Or.inr (Or.inr (Or.inr (Or.inr (Or.inr (Or.inr (Or.inl ⟨Or.inl hx, h⟩))))))
      · exact Or.inr (Or.inr (Or.inr (Or.inr (Or.inr (Or.inr (Or.inl ⟨Or.inr (Or.inl hx), h⟩))))))
    · intro h
      rcases h with ⟨p, q⟩ | ⟨p, q⟩ | ⟨p, q⟩ | ⟨p, q⟩ | ⟨p, q⟩ | ⟨p, q⟩ | ⟨p, q⟩ | ⟨p, q⟩ | ⟨p, q⟩ | ⟨p, q⟩ | ⟨p, q⟩ | ⟨p, q⟩ | ⟨p, q⟩ | ⟨p, q⟩ | ⟨p, q⟩ | ⟨p, q⟩ | ⟨p, q⟩
      all_goals omega
  case rel32 mn inc =>
    have hx := branchOf_inv7 _ h256 (by rw [hb]; rfl)
    rw [stepRel32_none, terminalShortage_def]
    constructor
    · intro h
      rcases hx with e | e
      · exact Or.inr (Or.inr (Or.inr (Or.inr (Or.inr (Or.inr (Or.inl ⟨Or.inr (Or.inr (Or.inl e)), h⟩))))))
      · exact Or.inr (Or.inr (Or.inr (Or.inr (Or.inr (Or.inr (Or.inl ⟨Or.inr (Or.inr (Or.inr e)), h⟩))))))
    · intro h
      rcases h with ⟨p, q⟩ | ⟨p, q⟩ | ⟨p, q⟩ | ⟨p, q⟩ | ⟨p, q⟩ | ⟨p, q⟩ | ⟨p, q⟩ | ⟨p, q⟩ | ⟨p, q⟩ | ⟨p, q⟩ | ⟨p, q⟩ | ⟨p, q⟩ | ⟨p, q⟩ | ⟨p, q⟩ | ⟨p, q⟩ | ⟨p, q⟩ | ⟨p, q⟩
      all_goals omega
  case movC6 =>
    have hx := branchOf_inv8 _ h256 (by rw [hb]; rfl)
    rw [stepMOVC6_none, terminalShortage_def]
    constructor
    · intro h
      exact Or.inr (Or.inr (Or.inr (Or.inr (Or.inr (Or.inr (Or.inr (Or.inl ⟨hx, h⟩)))))))
    · intro h
      rcases h with ⟨p, q⟩ | ⟨p, q⟩ | ⟨p, q⟩ | ⟨p, q⟩ | ⟨p, q⟩ | ⟨p, q⟩ | ⟨p, q⟩ | ⟨p, q⟩ | ⟨p, q⟩ | ⟨p, q⟩ | ⟨p, q⟩ | ⟨p, q⟩ | ⟨p, q⟩ | ⟨p, q⟩ | ⟨p, q⟩ | ⟨p, q⟩ | ⟨p, q⟩
      all_goals omega
  case movC7 =>
    have hx := branchOf_inv9 _ h256 (by rw [hb]; rfl)
    rw [stepMOVC7_none, terminalShortage_def]
    constructor
    · intro h
      exact Or.inr (Or.inr (Or.inr (Or.inr (Or.inr (Or.inr (Or.inr (Or.inr (Or.inl ⟨hx, h⟩))))))))
    · intro h
      rcases h with ⟨p, q⟩ | ⟨p, q⟩ | ⟨p, q⟩ | ⟨p, q⟩ | ⟨p, q⟩ | ⟨p, q⟩ | ⟨p, q⟩ | ⟨p, q⟩ | ⟨p, q⟩ | ⟨p, q⟩ | ⟨p, q⟩ | ⟨p, q⟩ | ⟨p, q⟩ | ⟨p, q⟩ | ⟨p, q⟩ | ⟨p, q⟩ | ⟨p, q⟩
      all_goals omega
  case lea =>
    have hx := branchOf_inv10 _ h256 (by rw [hb]; rfl)
    rw [stepLEA_none, terminalShortage_def]
    constructor
    · intro h
      exact Or.inr (Or.inr (Or.inr (Or.inr (Or.inr (Or.inr (Or.inr (Or.inr (Or.inr (Or.inl ⟨Or.inl hx, h⟩)))))))))
    · intro h
      rcases h with ⟨p, q⟩ | ⟨p, q⟩ | ⟨p, q⟩ | ⟨p, q⟩ | ⟨p, q⟩ | ⟨p, q⟩ | ⟨p, q⟩ | ⟨p, q⟩ | ⟨p, q⟩ | ⟨p, q⟩ | ⟨p, q⟩ | ⟨p, q⟩ | ⟨p, q⟩ | ⟨p, q⟩ | ⟨p, q⟩ | ⟨p, q⟩ | ⟨p, q⟩
      all_goals omega
  case testRM =>
    have hx := branchOf_inv11 _ h256 (by rw [hb]; rfl)
    rw [stepTEST_none, terminalShortage_def]
    constructor
    · intro h
      rcases hx with e | e
      · exact Or.inr (Or.inr (Or.inr (Or.inr (Or.inr (Or.inr (Or.inr (Or.inr (Or.inr (Or.inl ⟨Or.inr (Or.inl e), h⟩)))))))))
      · exact Or.inr (Or.inr (Or.inr (Or.inr (Or.inr (Or.inr (Or.inr (Or.inr (Or.inr (Or.inl ⟨Or.inr (Or.inr (Or.inl e)), h⟩)))))))))
    · intro h
      rcases h with ⟨p, q⟩ | ⟨p, q⟩ | ⟨p, q⟩ | ⟨p, q⟩ | ⟨p, q⟩ | ⟨p, q⟩ | ⟨p, q⟩ | ⟨p, q⟩ | ⟨p, q⟩ | ⟨p, q⟩ | ⟨p, q⟩ | ⟨p, q⟩ | ⟨p, q⟩ | ⟨p, q⟩ | ⟨p, q⟩ | ⟨p, q⟩ | ⟨p, q⟩
      all_goals omega
  case xchg =>
    have hx := branchOf_inv12 _ h256 (by rw [hb]; rfl)
    rw [stepXCHG_none, terminalShortage_def]
    constructor
    · intro h
      rcases hx with e | e
      · exact Or.inr (Or.inr (Or.inr (Or.inr (Or.inr (Or.inr (Or.inr (Or.inr (Or.inr (Or.inl ⟨Or.inr (Or.inr (Or.inr (Or.inl e))), h⟩)))))))))
      · exact Or.inr (Or.inr (Or.inr (Or.inr (Or.inr (Or.inr (Or.inr (Or.inr (Or.inr (Or.inl ⟨Or.inr (Or.inr (Or.inr (Or.inr e))), h⟩)))))))))
    · intro h
      rcases h with ⟨p, q⟩ | ⟨p, q⟩ | ⟨p, q⟩ | ⟨p, q⟩ | ⟨p, q⟩ | ⟨p, q⟩ | ⟨p, q⟩ | ⟨p, q⟩ | ⟨p, q⟩ | ⟨p, q⟩ | ⟨p, q⟩ | ⟨p, q⟩ | ⟨p, q⟩ | ⟨p, q⟩ | ⟨p, q⟩ | ⟨p, q⟩ | ⟨p, q⟩
      all_goals omega
  case shift =>
    have hx := branchOf_inv13 _ h256 (by rw [hb]; rfl)
    rw [stepShift_none, terminalShortage_def]
    constructor
    · intro h
      rcases h with h | ⟨c, r⟩
      · exact Or.inr (Or.inr (Or.inr (Or.inr (Or.inr (Or.inr (Or.inr (Or.inr (Or.inr (Or.inr (Or.inl ⟨hx, h⟩))))))))))
      · exact Or.inr (Or.inr (Or.inr (Or.inr (Or.inr (Or.inr (Or.inr (Or.inr (Or.inr (Or.inr (Or.inr (Or.inl ⟨c, r⟩)))))))))))
    · intro h
      rcases h with ⟨p, q⟩ | ⟨p, q⟩ | ⟨p, q⟩ | ⟨p, q⟩ | ⟨p, q⟩ | ⟨p, q⟩ | ⟨p, q⟩ | ⟨p, q⟩ | ⟨p, q⟩ | ⟨p, q⟩ | ⟨p, q⟩ | ⟨p, q⟩ | ⟨p, q⟩ | ⟨p, q⟩ | ⟨p, q⟩ | ⟨p, q⟩ | ⟨p, q⟩
      all_goals omega
  case f6f7 =>
    have hx := branchOf_inv14 _ h256 (by rw [hb]; rfl)
    rw [stepF6F7_none, terminalShortage_def]
    constructor
    · intro h
      rcases h with h | ⟨g, e, r⟩ | ⟨g, ne, r⟩
      · exact Or.inr (Or.inr (Or.inr (Or.inr (Or.inr (Or.inr (Or.inr (Or.inr (Or.inr (Or.inr (Or.inr (Or.inr (Or.inl ⟨hx, h⟩))))))))))))
      · exact Or.inr (Or.inr (Or.inr (Or.inr (Or.inr (Or.inr (Or.inr (Or.inr (Or.inr (Or.inr (Or.inr (Or.inr (Or.inr (Or.inl ⟨e, g, r⟩)))))))))))))
      · rcases hx with e2 | e2
        · exact absurd e2 ne
        · exact Or.inr (Or.inr (Or.inr (Or.inr (Or.inr (Or.inr (Or.inr (Or.inr (Or.inr (Or.inr (Or.inr (Or.inr (Or.inr (Or.inr (Or.inl ⟨e2, g, r⟩))))))))))))))
    · intro h
      rcases h with ⟨p, q⟩ | ⟨p, q⟩ | ⟨p, q⟩ | ⟨p, q⟩ | ⟨p, q⟩ | ⟨p, q⟩ | ⟨p, q⟩ | ⟨p, q⟩ | ⟨p, q⟩ | ⟨p, q⟩ | ⟨p, q⟩ | ⟨p, q⟩ | ⟨p, q⟩ | ⟨p, q⟩ | ⟨p, q⟩ | ⟨p, q⟩ | ⟨p, q⟩
      all_goals omega
  case esc0F =>
    have hx := branchOf_inv15 _ h256 (by rw [hb]; rfl)
    rw [step0F_none, terminalShortage_def]
    simp only [false_iff]
    intro h
    rcases h with ⟨p, q⟩ | ⟨p, q⟩ | ⟨p, q⟩ | ⟨p, q⟩ | ⟨p, q⟩ | ⟨p, q⟩ | ⟨p, q⟩ | ⟨p, q⟩ | ⟨p, q⟩ | ⟨p, q⟩ | ⟨p, q⟩ | ⟨p, q⟩ | ⟨p, q⟩ | ⟨p, q⟩ | ⟨p, q⟩ | ⟨p, q⟩ | ⟨p, q⟩
    all_goals omega
  case ff =>
    have hx := branchOf_inv16 _ h256 (by rw [hb]; rfl)
    rw [stepFF_none, terminalShortage_def]
    constructor
    · intro h
      exact Or.inr (Or.inr (Or.inr (Or.inr (Or.inr (Or.inr (Or.inr (Or.inr (Or.inr (Or.inr (Or.inr (Or.inr (Or.inr (Or.inr (Or.inr (Or.inl ⟨hx, h⟩)))))))))))))))
    · intro h
      rcases h with ⟨p, q⟩ | ⟨p, q⟩ | ⟨p, q⟩ | ⟨p, q⟩ | ⟨p, q⟩ | ⟨p, q⟩ | ⟨p, q⟩ | ⟨p, q⟩ | ⟨p, q⟩ | ⟨p, q⟩ | ⟨p, q⟩ | ⟨p, q⟩ | ⟨p, q⟩ | ⟨p, q⟩ | ⟨p, q⟩ | ⟨p, q⟩ | ⟨p, q⟩
      all_goals omega
  case loopE2 =>
    have hx := branchOf_inv17 _ h256 (by rw [hb]; rfl)
    rw [stepLOOP_none, terminalShortage_def]
    constructor
    · intro h
      exact Or.inr (Or.inr (Or.inr (Or.inr (Or.inr (Or.inr (Or.inr (Or.inr (Or.inr (Or.inr (Or.inr (Or.inr (Or.inr (Or.inr (Or.inr (Or.inr (⟨hx, h⟩))))))))))))))))
    · intro h
      rcases h with ⟨p, q⟩ | ⟨p, q⟩ | ⟨p, q⟩ | ⟨p, q⟩ | ⟨p, q⟩ | ⟨p, q⟩ | ⟨p, q⟩ | ⟨p, q⟩ | ⟨p, q⟩ | ⟨p, q⟩ | ⟨p, q⟩ | ⟨p, q⟩ | ⟨p, q⟩ | ⟨p, q⟩ | ⟨p, q⟩ | ⟨p, q⟩ | ⟨p, q⟩
      all_goals omega
  case rep =>
    have hx := branchOf_inv18 _ h256 (by rw [hb]; rfl)
    rw [stepREP_none, terminalShortage_def]
    simp only [false_iff]
    intro h
    rcases h with ⟨p, q⟩ | ⟨p, q⟩ | ⟨p, q⟩ | ⟨p, q⟩ | ⟨p, q⟩ | ⟨p, q⟩ | ⟨p, q⟩ | ⟨p, q⟩ | ⟨p, q⟩ | ⟨p, q⟩ | ⟨p, q⟩ | ⟨p, q⟩ | ⟨p, q⟩ | ⟨p, q⟩ | ⟨p, q⟩ | ⟨p, q⟩ | ⟨p, q⟩
    all_goals omega
  case unknown =>
    have hx := (branchOf_unknown_iff _ h256).mp (by rw [hb]; rfl)
    unfold knownPrimary at hx
    rw [terminalShortage_def]
    simp only [Option.some_ne_none, false_iff]
    intro h
    rcases h with ⟨p, q⟩ | ⟨p, q⟩ | ⟨p, q⟩ | ⟨p, q⟩ | ⟨p, q⟩ | ⟨p, q⟩ | ⟨p, q⟩ | ⟨p, q⟩ | ⟨p, q⟩ | ⟨p, q⟩ | ⟨p, q⟩ | ⟨p, q⟩ | ⟨p, q⟩ | ⟨p, q⟩ | ⟨p, q⟩ | ⟨p, q⟩ | ⟨p, q⟩
    all_goals omega

theorem step_eq_lock (d : Nat) (code : List Nat) (i : Nat)
    (h : byteAtD d code i = 0xF0) : step d code i = ("LOCK ", some (i + 1)) := by
  simp only [step, h, show branchOf 0xF0 = Branch.fixed "LOCK " from by decide]

theorem step_eq_repnz (d : Nat) (code : List Nat) (i : Nat)
    (h : byteAtD d code i = 0xF2) : step d code i = ("REPNZ ", some (i + 1)) := by
  simp only [step, h, show branchOf 0xF2 = Branch.fixed "REPNZ " from by decide]

set_option maxRecDepth 8192 in
theorem branchOf_of_not_known : ∀ b, b < 256 →
    ¬ knownPrimary b → branchOf b = Branch.unknown := by
  decide

theorem step_eq_unknown (d : Nat) (code : List Nat) (i : Nat)
    (h : ¬ knownPrimary (byteAtD d code i)) :
    step d code i
      = ("Unknown instruction: 0x" ++ hexPad 2 (byteAtD d code i), some (i + 1)) := by
  simp only [step, branchOf_of_not_known _ (byteAtD_lt d code i) h]

theorem step_eq_0F_incomplete (d : Nat) (code : List Nat) (i : Nat)
    (h : byteAtD d code i = 0x0F) (h2 : i + 2 ≥ code.length) :
    step d code i = ("Incomplete 0F instruction", some (i + 1)) := by
  simp only [step, h, show branchOf 0x0F = Branch.esc0F from by decide, step0F]
  rw [if_pos h2]

theorem step_eq_0F_unknown (d : Nat) (code : List Nat) (i : Nat)
    (h : byteAtD d code i = 0x0F) (h2 : i + 2 < code.length)
    (hs : ¬(byteAtD d code (i + 1) = 0xB6 ∨ byteAtD d code (i + 1) = 0xB7 ∨
      byteAtD d code (i + 1) = 0xBE ∨ byteAtD d code (i + 1) = 0xBF)) :
    step d code i = ("Unknown 0F instruction", some (i + 2)) := by
  simp only [step, h, show branchOf 0x0F = Branch.esc0F from by decide, step0F]
  rw [if_neg (by omega), if_neg (by tauto), if_neg (by tauto)]

/-- C1: the claim says that for `mod == 0, rm == 4, SIB.base == 5` a 4-byte
displacement is consumed with no base register.  The code drops the base
register but never reads the displacement: its disp32 test checks `rm == 5`
(the ModR/M field, which is 4 here), not `SIB.base == 5`, contradicting the
code's own comment "(disp32 only)".  For every SIB byte with base field 5 and
any scale/index, the decode consumes exactly the SIB byte and nothing else,
and on the concrete failing input it produces the operand text `"[]"` with no
displacement text. -/
theorem claim_C1_sib_base5_no_disp32 (d : Nat) (code : List Nat)
    (index size : Nat) (h : index < size) (hb : byteAtD d code index % 8 = 5) :
    (decode_rm_operand d 0x04 code index size).2 = index + 1
    ∧ decode_rm_operand 0 0x04 [0x8B, 0x04, 0x25, 0x78, 0x56, 0x34, 0x12] 2 7
        = ("[]", 3) := by
  constructor
  · have h1 : ¬(index ≥ size) := by omega
    simp [decode_rm_operand, dispSuffix, h1]
  · decide

theorem claim_C1_witness :
    (decode_rm_operand 0 0x04 [0x8B, 0x04, 0x25, 0x78, 0x56, 0x34, 0x12] 2 7).2
      = 2 + 1 :=
  (claim_C1_sib_base5_no_disp32 0 [0x8B, 0x04, 0x25, 0x78, 0x56, 0x34, 0x12] 2 7
    (by decide) (by decide)).1

/-- C2 counterexample: after the truncation marker of the 0x0F branch the
pass does not terminate; a second line is produced. -/
theorem claim_C2_counterexample :
    disassemble [0x0F, 0x90] = ["0000: Incomplete 0F instruction", "0001: NOP"]
    ∧ (disassemble [0x0F, 0x90]).length = 2 := by decide

/-- C2 (amended): the pass terminates early exactly on the shortages listed in
`terminalShortage` (a missing ModR/M, immediate or relative-offset field); on
such a shortage the line carrying the incomplete-instruction marker is the
last line of the pass.  The 0x0F escape with insufficient bytes is the
exception the counterexample forces: it emits "Incomplete 0F instruction" and
decoding continues at the next byte. -/
theorem claim_C2_truncation_terminal (d : Nat) (code : List Nat) (i : Nat)
    (hi : i < code.length) :
    ((step d code i).2 = none ↔ terminalShortage d code i)
    ∧ (terminalShortage d code i →
        disasmFrom d code i = [fmtOff i ++ (step d code i).1])
    ∧ (byteAtD d code i = 0x0F → i + 2 ≥ code.length →
        disasmFrom d code i
          = (fmtOff i ++ "Incomplete 0F instruction") :: disasmFrom d code (i + 1)) := by
  refine ⟨step_none_iff d code i hi, ?_, ?_⟩
  · intro hts
    have hn : (step d code i).2 = none := (step_none_iff d code i hi).mpr hts
    rcases hstep : step d code i with ⟨t, o⟩
    cases o with
    | none =>
      simp only [disasmFrom_halt d code i t hi hstep, hstep]
    | some next =>
      rw [hstep] at hn
      cases hn
  · intro hf h2
    exact disasmFrom_cons d code i _ (i + 1) hi (step_eq_0F_incomplete d code i hf h2)

theorem claim_C2_witness :
    terminalShortage 0 [0xB8] 0
    ∧ disasmFrom 0 [0xB8] 0 = [fmtOff 0 ++ (step 0 [0xB8] 0).1] := by
  have hts : terminalShortage 0 [0xB8] 0 := by
    rw [terminalShortage_def]
    exact Or.inr (Or.inr (Or.inr (Or.inr (Or.inr (Or.inr (Or.inl
      ⟨Or.inl ⟨by decide, by decide⟩, by decide⟩))))))
  exact ⟨hts, (claim_C2_truncation_terminal 0 [0xB8] 0 (by decide)).2.1 hts⟩

/-- C3 counterexample: decoding `[0xF3, 0xA4]` produces one output line, not
two, and no line reads `"0001: MOVSB"`. -/
theorem claim_C3_counterexample :
    (disassemble [0xF3, 0xA4]).length = 1
    ∧ ¬ ("0001: MOVSB" ∈ disassemble [0xF3, 0xA4]) := by decide

/-- C3 (amended): the REP branch decodes the prefix and the following MOVSB in
one dispatch and prints them on a single line; `[0xF3, 0xA4]` produces exactly
the one line `"0000: REP MOVSB"`, consuming both bytes. -/
theorem claim_C3_rep_movsb_one_line :
    disassemble [0xF3, 0xA4] = ["0000: REP MOVSB"] := by decide

/-- C4 counterexample: an unknown secondary byte after the 0x0F escape
advances the cursor by two bytes, not one: the line after the marker is at
offset 0002, not 0001. -/
theorem claim_C4_counterexample :
    disassemble [0x0F, 0x00, 0x90]
      = ["0000: Unknown 0F instruction", "0002: NOP"] := by decide

/-- C4 (amended): an unknown primary byte emits the unknown-instruction
marker, advances the cursor by exactly 1 byte and decoding continues; an
unknown secondary byte after the 0x0F escape (with its ModR/M byte available)
emits its marker and advances by exactly 2 bytes (the escape byte and the
secondary byte), then continues. -/
theorem claim_C4_unknown_opcode_advance (d : Nat) (code : List Nat) (i : Nat)
    (hi : i < code.length) :
    (¬ knownPrimary (byteAtD d code i) →
      disasmFrom d code i
        = (fmtOff i ++ ("Unknown instruction: 0x" ++ hexPad 2 (byteAtD d code i)))
            :: disasmFrom d code (i + 1))
    ∧ (byteAtD d code i = 0x0F → i + 2 < code.length →
      ¬(byteAtD d code (i + 1) = 0xB6 ∨ byteAtD d code (i + 1) = 0xB7 ∨
        byteAtD d code (i + 1) = 0xBE ∨ byteAtD d code (i + 1) = 0xBF) →
      disasmFrom d code i
        = (fmtOff i ++ "Unknown 0F instruction") :: disasmFrom d code (i + 2)) := by
  constructor
  · intro h
    exact disasmFrom_cons d code i _ (i + 1) hi (step_eq_unknown d code i h)
  · intro hf h2 hs
    exact disasmFrom_cons d code i _ (i + 2) hi (step_eq_0F_unknown d code i hf h2 hs)

theorem claim_C4_witness :
    disasmFrom 0 [0x62] 0
      = (fmtOff 0 ++ ("Unknown instruction: 0x" ++ hexPad 2 (byteAtD 0 [0x62] 0)))
          :: disasmFrom 0 [0x62] 1 :=
  (claim_C4_unknown_opcode_advance 0 [0x62] 0 (by decide)).1 (by decide)

/-- C5: every dispatch that continues advances the cursor by at least one
byte, and consequently the pass over any finite buffer produces at most one
line per input byte (the loop is bounded by the buffer length). -/
theorem claim_C5_forward_progress (d : Nat) (code : List Nat) (i : Nat)
    (t : String) (next : Nat) (hi : i < code.length)
    (h : step d code i = (t, some next)) :
    i + 1 ≤ next ∧ (disassemble code).length ≤ code.length := by
  refine ⟨(step_bounds d code i hi next (by rw [h])).1, ?_⟩
  exact goF_length 0 code code.length 0

theorem claim_C5_witness :
    0 + 1 ≤ 1 ∧ (disassemble [0x90]).length ≤ ([0x90] : List Nat).length :=
  claim_C5_forward_progress 0 [0x90] 0 "NOP" 1 (by decide) (by decide)

/-- C6 counterexample: a lone REP byte moves the cursor to 2 while the buffer
length is 1, so the cursor does exceed the buffer length. -/
theorem claim_C6_counterexample :
    (step 0 [0xF3] 0).2 = some 2 ∧ ([0xF3] : List Nat).length = 1 := by decide

/-- C6 (amended): the cursor never moves backward; no read is performed at or
beyond the buffer length (the decode output is independent of the value an
out-of-range read would produce); and the cursor never exceeds the buffer
length except through the REP branch at the end of the buffer, which may leave
it at length + 1 without reading out of bounds. -/
theorem claim_C6_cursor_safety (d d2 : Nat) (code : List Nat) (i : Nat)
    (hi : i < code.length) :
    step d code i = step d2 code i
    ∧ (∀ t next, step d code i = (t, some next) → i < next ∧ next ≤ code.length + 1)
    ∧ (byteAtD d code i ≠ 0xF3 →
        ∀ t next, step d code i = (t, some next) → next ≤ code.length) := by
  refine ⟨step_irrel d d2 code i hi, ?_, ?_⟩
  · intro t next h
    have hb := step_bounds d code i hi next (by rw [h])
    exact ⟨by omega, hb.2.1⟩
  · intro hne t next h
    exact (step_bounds d code i hi next (by rw [h])).2.2 hne

theorem claim_C6_witness :
    step 0 [0x90] 0 = step 7 [0x90] 0 ∧ (0 : Nat) < 1 := by
  have h := claim_C6_cursor_safety 0 7 [0x90] 0 (by decide)
  exact ⟨h.1, (h.2.1 "NOP" 1 (by decide)).1⟩

/-- C7: for every ModR/M byte with `mod == 3`, the operand is the bare
register selected by `rm` and the cursor is returned unchanged: no SIB and no
displacement byte is consumed, for all `rm` in 0..7. -/
theorem claim_C7_mod3_register (d modrm : Nat) (code : List Nat)
    (index size : Nat) (hm : modrm < 256) (h3 : modrm / 64 = 3) :
    decode_rm_operand d modrm code index size = (regName (modrm % 8), index) := by
  simp [decode_rm_operand, h3]

theorem claim_C7_witness :
    decode_rm_operand 0 0xD8 [] 9 0 = ("EAX", 9) := by
  rw [claim_C7_mod3_register 0 0xD8 [] 9 0 (by decide) (by decide)]
  rfl

/-- C9: decoding the sample `[0x90, 0xB8, 0x78, 0x56, 0x34, 0x12, 0xC3]`
produces exactly the three lines "0000: NOP", "0001: MOV EAX, 0x12345678"
(the imm32 read little-endian) and "0006: RET". -/
theorem claim_C9_sample_decode :
    disassemble [0x90, 0xB8, 0x78, 0x56, 0x34, 0x12, 0xC3]
      = ["0000: NOP", "0001: MOV EAX, 0x12345678", "0006: RET"] := by decide

/-- C10: a LOCK (0xF0) or REPNZ (0xF2) byte beginning an instruction at
offset `p` yields the line `offset ++ "LOCK "` (respectively `"REPNZ "`) with
a trailing space and no operand text, and the following byte is dispatched
independently starting a fresh line. -/
theorem claim_C10_lock_repnz_prefix_line (d : Nat) (code : List Nat) (p : Nat)
    (hp : p < code.length) :
    (byteAtD d code p = 0xF0 →
      disasmFrom d code p = (fmtOff p ++ "LOCK ") :: disasmFrom d code (p + 1))
    ∧ (byteAtD d code p = 0xF2 →
      disasmFrom d code p = (fmtOff p ++ "REPNZ ") :: disasmFrom d code (p + 1)) := by
  constructor <;> intro h
  · exact disasmFrom_cons d code p "LOCK " (p + 1) hp (step_eq_lock d code p h)
  · exact disasmFrom_cons d code p "REPNZ " (p + 1) hp (step_eq_repnz d code p h)

theorem claim_C10_witness :
    disasmFrom 0 [0xF0, 0x90] 0
      = (fmtOff 0 ++ "LOCK ") :: disasmFrom 0 [0xF0, 0x90] 1 :=
  (claim_C10_lock_repnz_prefix_line 0 [0xF0, 0x90] 0 (by decide)).1 (by decide)

/-- The mod == 1 displacement: exactly one byte, sign-extended, rendered with
a leading minus and the absolute value when negative and a plus otherwise. -/
theorem dispSuffix_mod1 (d : Nat) (code : List Nat) (index size rm : Nat)
    (h : index < size) :
    dispSuffix d code index size 1 rm
      = ((if 128 ≤ byteAtD d code index then
            " - 0x" ++ hexStr (256 - byteAtD d code index) ++ "]"
          else " + 0x" ++ hexStr (byteAtD d code index) ++ "]"), index + 1) := by
  simp only [dispSuffix, if_true]
  rw [if_neg (by omega)]
  split_ifs <;> rfl

/-- C8: for every ModR/M byte with `mod == 1` and enough bytes, the operand
decode consumes exactly one displacement byte (after the SIB byte when
`rm == 4`), interpreted as a sign-extended 8-bit value: the operand text ends
with `" - 0x"` and the absolute value for a negative byte, `" + 0x"` and the
value otherwise, and the byte 0xFF renders as `" - 0x1"` before the closing
bracket. -/
theorem claim_C8_mod1_disp8 (d modrm : Nat) (code : List Nat)
    (idx size j : Nat) (hm : modrm < 256) (h1 : modrm / 64 = 1)
    (hj : j = idx + (if modrm % 8 = 4 then 1 else 0)) (hav : j < size) :
    (decode_rm_operand d modrm code idx size).2 = j + 1
    ∧ (∃ pre, (decode_rm_operand d modrm code idx size).1
        = pre ++
          (if 128 ≤ byteAtD d code j then
            " - 0x" ++ hexStr (256 - byteAtD d code j) ++ "]"
          else " + 0x" ++ hexStr (byteAtD d code j) ++ "]"))
    ∧ (byteAtD d code j = 0xFF →
        (if 128 ≤ byteAtD d code j then
          " - 0x" ++ hexStr (256 - byteAtD d code j) ++ "]"
        else " + 0x" ++ hexStr (byteAtD d code j) ++ "]")
          = " - 0x1" ++ "]") := by
  by_cases h4 : modrm % 8 = 4
  · have hj2 : j = idx + 1 := by rw [hj, if_pos h4]
    rw [hj2] at hav ⊢
    have hdisp := dispSuffix_mod1 d code (idx + 1) size (modrm % 8) hav
    simp only [decode_rm_operand]
    rw [if_neg (show ¬(modrm / 64 = 3) from by omega), if_pos h4,
      if_neg (show ¬(idx ≥ size) from by omega), h1, hdisp]
    refine ⟨rfl, ⟨_, rfl⟩, ?_⟩
    intro hff
    rw [hff]
    decide
  · have hj2 : j = idx := by rw [hj, if_neg h4]; omega
    rw [hj2] at hav ⊢
    have hdisp := dispSuffix_mod1 d code idx size (modrm % 8) hav
    simp only [decode_rm_operand]
    rw [if_neg (show ¬(modrm / 64 = 3) from by omega), if_neg h4, h1, hdisp]
    refine ⟨rfl, ⟨_, rfl⟩, ?_⟩
    intro hff
    rw [hff]
    decide

theorem claim_C8_witness :
    (decode_rm_operand 0 0x45 [0xFF] 0 1).2 = 0 + 1
    ∧ decode_rm_operand 0 0x45 [0xFF] 0 1 = ("[EBP - 0x1]", 1) := by
  have h := claim_C8_mod1_disp8 0 0x45 [0xFF] 0 1 0 (by decide) (by decide)
    (by decide) (by decide)
  exact ⟨h.1, by decide⟩

end Disforge
